import Mathlib

/-!
# imp.push : display encode-and-transport pipeline

A shallow embedding of `src/imp.push.c` (a Jitter external that streams a
960 x 160 matrix to the Ableton Push 2 display over USB) together with the
properties of its pixel converter, frame shaper, frame transport and device
enumeration.

Modelling conventions

* A C byte buffer is an array of bytes indexed by the offset from the start of
  the allocation, `Mem = Array Nat`.  Every store reduces the stored value
  modulo the width of the C lvalue (`% 256` for `uint8_t`, `% 65536` for
  `uint16_t`).  The two pipeline buffers are separate allocations of
  `PUSH2_DISPLAY_IMAGE_BUFFER_SIZE` bytes, hence separate arrays.
* An access outside an allocation is undefined in C; here such a load yields 0
  and such a store is dropped.  The theorems carry the buffer sizes as
  hypotheses, and the frame lemmas show that every offset the loops touch lies
  inside the allocation.
* A `uint16_t` store goes through a `uint16_t*` alias of the draw buffer; the
  host is little-endian (x86-64 / arm64, the platforms of the Max SDK), so the
  low byte lands at the lower address.
* Pointer cursors (`src`, `dst`) are byte offsets that are threaded through
  the loops exactly as the C code increments them.
* Calls into libusb and the Max threading API are recorded as events of a
  trace; the result codes libusb returns are oracle inputs.
-/

namespace ImpPush

/-! ## Constants (lines 5-30) -/

def ABLETON_VENDOR_ID : Nat := 0x2982
def PUSH2_PRODUCT_ID : Nat := 0x1967
def PUSH2_BULK_EP_OUT : Nat := 0x01
def PUSH2_TRANSFER_TIMEOUT : Nat := 1000

def PUSH2_DISPLAY_WIDTH : Nat := 960
def PUSH2_DISPLAY_HEIGHT : Nat := 160
def PUSH2_DISPLAY_LINE_BUFFER_SIZE : Nat := 2048
def PUSH2_DISPLAY_LINE_GUTTER_SIZE : Nat := 128
def PUSH2_DISPLAY_MESSAGE_BUFFER_SIZE : Nat := 16384
def PUSH2_DISPLAY_IMAGE_BUFFER_SIZE : Nat :=
  PUSH2_DISPLAY_LINE_BUFFER_SIZE * PUSH2_DISPLAY_HEIGHT
def PUSH2_DISPLAY_MESSAGES_PER_IMAGE : Nat :=
  (PUSH2_DISPLAY_LINE_BUFFER_SIZE * PUSH2_DISPLAY_HEIGHT) / PUSH2_DISPLAY_MESSAGE_BUFFER_SIZE

def PUSH2_DISPLAY_SHAPING_PATTERN_1 : Nat := 0xE7
def PUSH2_DISPLAY_SHAPING_PATTERN_2 : Nat := 0xF3
def PUSH2_DISPLAY_SHAPING_PATTERN_3 : Nat := 0xE7
def PUSH2_DISPLAY_SHAPING_PATTERN_4 : Nat := 0xFF

def PUSH2_DISPLAY_FRAMERATE : Nat := 60

def PUSH2_DISPLAY_FRAME_HEADER : List Nat :=
  [0xFF, 0xCC, 0xAA, 0x88,
   0x00, 0x00, 0x00, 0x00,
   0x00, 0x00, 0x00, 0x00,
   0x00, 0x00, 0x00, 0x00]

/-- The value of `LIBUSB_CLASS_PER_INTERFACE` in `libusb.h` (an external header). -/
def LIBUSB_CLASS_PER_INTERFACE : Nat := 0

/-! ## Memory -/

/-- A byte buffer, indexed by byte offset. -/
abbrev Mem := Array Nat

/-- Load through a `uint8_t*`: the value of `*(p)` at byte offset `a`. -/
def load_u8 (m : Mem) (a : Nat) : Nat := m.getD a 0

/-- Every cell of the buffer holds an 8-bit value. -/
def ByteValued (m : Mem) : Prop := ∀ a, load_u8 m a < 256

/-- Store through a `uint8_t*`: `*(p) = v`. -/
def store_u8 (m : Mem) (off v : Nat) : Mem :=
  m.setD off (v % 256)

/-- Store through a `uint16_t*` on a little-endian host: `*(p) = v`. -/
def store_u16 (m : Mem) (off v : Nat) : Mem :=
  (m.setD off ((v % 65536) % 256)).setD (off + 1) ((v % 65536) / 256)

/-- The `len` bytes starting at `off`, as handed to a transfer. -/
def read_bytes (m : Mem) (off len : Nat) : List Nat :=
  (List.range len).map (fun k => load_u8 m (off + k))

/-- A buffer as returned by `sysmem_newptrclear`: `size` bytes, all zero. -/
def zeroed (size : Nat) : Mem := mkArray size 0

/-! ## Object state and observable events -/

/-- Status codes of `jit.common.h` that `imp_push_matrix_calc` returns. -/
inductive t_jit_err where
  | JIT_ERR_NONE
  | JIT_ERR_INVALID_PTR
  | JIT_ERR_INVALID_INPUT
  deriving DecidableEq, Repr

/-- The fields of `t_imp_push` (lines 34-48) that the pipeline reads or writes.
`device` is `none` for a NULL handle. -/
structure t_imp_push where
  isThreadCancel : Bool
  draw_buffer : Mem
  send_buffer : Mem
  device : Option Nat
  is_matrix_received : Bool

/-- Calls that leave the object: the shared mutex, bulk transfers, the frame sleep. -/
inductive Event where
  | mutex_lock
  | mutex_unlock
  | bulk_transfer (device endpoint : Nat) (data : List Nat) (length timeout : Nat)
  | sleep (ms : Nat)
  deriving DecidableEq, Repr

/-- The input matrix as `imp_push_matrix_calc` sees it: the pointer that the
`getdata` method stores into `in_bp` (`none` for NULL), addressed by byte offset. -/
structure t_jit_matrix where
  data : Option Mem

/-! ## Frame shaper (lines 197-219) -/

/-- The two cursors of `imp_push_copyandmask_buffer` and the send buffer they write. -/
structure MaskCursor where
  src : Nat
  dst : Nat
  send : Mem

/-- Body of the inner loop, lines 208-211: four byte stores, each advancing both cursors. -/
def mask_group (draw : Mem) (c : MaskCursor) : MaskCursor :=
  let s1 := store_u8 c.send c.dst (load_u8 draw c.src ^^^ PUSH2_DISPLAY_SHAPING_PATTERN_1)
  let s2 := store_u8 s1 (c.dst + 1)
    (load_u8 draw (c.src + 1) ^^^ PUSH2_DISPLAY_SHAPING_PATTERN_2)
  let s3 := store_u8 s2 (c.dst + 2)
    (load_u8 draw (c.src + 2) ^^^ PUSH2_DISPLAY_SHAPING_PATTERN_3)
  let s4 := store_u8 s3 (c.dst + 3)
    (load_u8 draw (c.src + 3) ^^^ PUSH2_DISPLAY_SHAPING_PATTERN_4)
  { src := c.src + 4, dst := c.dst + 4, send := s4 }

/-- Inner loop, line 206: `for (dX = ..; dX < LINE_BUFFER_SIZE - LINE_GUTTER_SIZE; dX += 4)`.
The first argument bounds the number of iterations. -/
def mask_line (draw : Mem) : Nat → Nat → MaskCursor → MaskCursor
  | 0, _, c => c
  | fuel + 1, dX, c =>
    if dX < PUSH2_DISPLAY_LINE_BUFFER_SIZE - PUSH2_DISPLAY_LINE_GUTTER_SIZE then
      mask_line draw fuel (dX + 4) (mask_group draw c)
    else c

/-- Outer loop, lines 204-216, with `n` lines left: shape one line, then step both
cursors over the gutter. -/
def mask_lines (draw : Mem) : Nat → MaskCursor → MaskCursor
  | 0, c => c
  | n + 1, c =>
    let c1 := mask_line draw PUSH2_DISPLAY_LINE_BUFFER_SIZE 0 c
    mask_lines draw n
      { src := c1.src + PUSH2_DISPLAY_LINE_GUTTER_SIZE,
        dst := c1.dst + PUSH2_DISPLAY_LINE_GUTTER_SIZE,
        send := c1.send }

/-- The function `imp_push_copyandmask_buffer`: returns the new state and the mutex events. -/
def imp_push_copyandmask_buffer (x : t_imp_push) : t_imp_push × List Event :=
  let c := mask_lines x.draw_buffer PUSH2_DISPLAY_HEIGHT
    { src := 0, dst := 0, send := x.send_buffer }
  ({ x with send_buffer := c.send }, [Event.mutex_lock, Event.mutex_unlock])

/-! ## Pixel converter (lines 136-195) -/

/-- The right-hand side of line 178 over the bytes `src[1]`, `src[2]`, `src[3]`,
evaluated in C `int` arithmetic (no wrap-around is possible at these magnitudes). -/
def pack_pixel (c1 c2 c3 : Nat) : Nat :=
  (c1 >>> 3) ||| ((c2 &&& 0xFC) <<< 3) ||| ((c3 &&& 0xF8) <<< 8)

/-- The cursors of the conversion loop (byte offsets) and the draw buffer. -/
structure CalcCursor where
  src : Nat
  dst : Nat
  draw : Mem

/-- Inner loop, lines 176-180, with `n` pixels left in the row. -/
def calc_row (in_bp : Mem) : Nat → CalcCursor → CalcCursor
  | 0, c => c
  | n + 1, c =>
    calc_row in_bp n
      { src := c.src + 4,
        dst := c.dst + 2,
        draw := store_u16 c.draw c.dst
          (pack_pixel (load_u8 in_bp (c.src + 1)) (load_u8 in_bp (c.src + 2))
            (load_u8 in_bp (c.src + 3))) }

/-- Outer loop, lines 174-183, with `n` rows left; `dst` is a `uint16_t*`, so
`dst += GUTTER / 2` moves it by `2 * (GUTTER / 2)` bytes. -/
def calc_rows (in_bp : Mem) : Nat → CalcCursor → CalcCursor
  | 0, c => c
  | n + 1, c =>
    let c1 := calc_row in_bp PUSH2_DISPLAY_WIDTH c
    calc_rows in_bp n
      { src := c1.src,
        dst := c1.dst + 2 * (PUSH2_DISPLAY_LINE_GUTTER_SIZE / 2),
        draw := c1.draw }

/-- What a call of `imp_push_matrix_calc` leaves behind. -/
structure CalcResult where
  err : t_jit_err
  state : t_imp_push
  events : List Event

/-- The function `imp_push_matrix_calc` on an allocated object `x`; `in_matrix` is
the result of `getindex 0` on the inputs (`none` for NULL). -/
def imp_push_matrix_calc (x : t_imp_push) (in_matrix : Option t_jit_matrix) : CalcResult :=
  match in_matrix with
  | none => { err := t_jit_err.JIT_ERR_INVALID_PTR, state := x, events := [] }
  | some m =>
    let x1 := { x with is_matrix_received := true }
    match m.data with
    | none => { err := t_jit_err.JIT_ERR_INVALID_INPUT, state := x1, events := [] }
    | some in_bp =>
      let c := calc_rows in_bp PUSH2_DISPLAY_HEIGHT
        { src := 0, dst := 0, draw := x1.draw_buffer }
      let r := imp_push_copyandmask_buffer { x1 with draw_buffer := c.draw }
      { err := t_jit_err.JIT_ERR_NONE, state := r.1, events := r.2 }

/-! ## Frame transport (lines 221-272) -/

/-- The call of lines 255-261 for loop index `i`: `MESSAGE_BUFFER_SIZE` bytes read at
`x->send_buffer + i * MESSAGE_BUFFER_SIZE`. -/
def message_event (dev : Nat) (send : Mem) (i : Nat) : Event :=
  Event.bulk_transfer dev PUSH2_BULK_EP_OUT
    (read_bytes send (i * PUSH2_DISPLAY_MESSAGE_BUFFER_SIZE) PUSH2_DISPLAY_MESSAGE_BUFFER_SIZE)
    PUSH2_DISPLAY_MESSAGE_BUFFER_SIZE PUSH2_TRANSFER_TIMEOUT

/-- The call of lines 231-237: the frame header, `sizeof` bytes of it. -/
def header_event (dev : Nat) : Event :=
  Event.bulk_transfer dev PUSH2_BULK_EP_OUT PUSH2_DISPLAY_FRAME_HEADER
    PUSH2_DISPLAY_FRAME_HEADER.length PUSH2_TRANSFER_TIMEOUT

/-- Data loop, lines 253-265, with `n` iterations left and loop index `i`;
`result i` is what `libusb_bulk_transfer` returns for message `i`. -/
def send_messages (dev : Nat) (send : Mem) (result : Nat → Int) : Nat → Nat → List Event
  | 0, _ => []
  | n + 1, i =>
    message_event dev send i ::
      (if result i ≠ 0 then [] else send_messages dev send result n (i + 1))

/-- Body of the while loop of `imp_push_threadproc`, lines 225-270.  The switch on
the header result (lines 239-251) has only empty branches, so `header_result` is
not consulted. -/
def threadproc_body (x : t_imp_push) (_header_result : Int) (result : Nat → Int) :
    List Event :=
  (match x.device with
    | some dev =>
      if x.is_matrix_received then
        [Event.mutex_lock, header_event dev]
          ++ send_messages dev x.send_buffer result PUSH2_DISPLAY_MESSAGES_PER_IMAGE 0
          ++ [Event.mutex_unlock]
      else []
    | none => [])
  ++ [Event.sleep (1000 / PUSH2_DISPLAY_FRAMERATE)]

/-- One test of the loop condition on line 223 followed, when it holds, by the body. -/
def threadproc_iteration (x : t_imp_push) (header_result : Int) (result : Nat → Int) :
    List Event :=
  if x.isThreadCancel then [] else threadproc_body x header_result result

/-- Whether an event is a USB transfer. -/
def Event.is_transfer : Event → Bool
  | Event.bulk_transfer _ _ _ _ _ => true
  | _ => false

/-! ## Device enumeration (lines 274-331) -/

/-- The descriptor fields that line 307-309 compare. -/
structure libusb_device_descriptor where
  bDeviceClass : Nat
  idVendor : Nat
  idProduct : Nat

/-- One entry of the device list with the results libusb gives for it. -/
structure UsbDevice where
  descriptor_result : Int
  descriptor : libusb_device_descriptor
  open_result : Int
  claim_result : Int

/-- The USB environment seen by `imp_push_open_device`. -/
structure UsbHost where
  init_result : Int
  list_result : Int
  devices : List UsbDevice

/-- Calls on device handles.  The handle that `libusb_open` yields for entry `i` of
the device list is named `i`. -/
inductive UsbEvent where
  | libusb_open (i : Nat) (result : Int)
  | libusb_claim_interface (handle interface_number : Nat) (result : Int)
  | libusb_close (handle : Nat)
  deriving DecidableEq, Repr

/-- The handle (list index) an event is about. -/
def UsbEvent.handle : UsbEvent → Nat
  | UsbEvent.libusb_open i _ => i
  | UsbEvent.libusb_claim_interface h _ _ => h
  | UsbEvent.libusb_close h => h

/-- The test of lines 307-309. -/
def is_push2 (d : libusb_device_descriptor) : Bool :=
  d.bDeviceClass == LIBUSB_CLASS_PER_INTERFACE
    && d.idVendor == ABLETON_VENDOR_ID
    && d.idProduct == PUSH2_PRODUCT_ID

/-- The loop of lines 298-327 over the remaining list entries, at index `i`, with the
current value of the local `device_handle`.  `libusb_open` assigns the handle only
when it succeeds. -/
def open_loop : List UsbDevice → Nat → Option Nat → Option Nat × List UsbEvent
  | [], _, device_handle => (device_handle, [])
  | d :: rest, i, device_handle =>
    if d.descriptor_result < 0 then
      open_loop rest (i + 1) device_handle
    else if is_push2 d.descriptor then
      if d.open_result < 0 then
        let r := open_loop rest (i + 1) device_handle
        (r.1, UsbEvent.libusb_open i d.open_result :: r.2)
      else if d.claim_result < 0 then
        let r := open_loop rest (i + 1) none
        (r.1, UsbEvent.libusb_open i d.open_result
              :: UsbEvent.libusb_claim_interface i 0 d.claim_result
              :: UsbEvent.libusb_close i :: r.2)
      else
        (some i, [UsbEvent.libusb_open i d.open_result,
                  UsbEvent.libusb_claim_interface i 0 d.claim_result])
    else
      open_loop rest (i + 1) device_handle

/-- The function `imp_push_open_device`: the returned handle and the handle calls made. -/
def imp_push_open_device (host : UsbHost) : Option Nat × List UsbEvent :=
  if host.init_result < 0 then (none, [])
  else if host.list_result < 0 then (none, [])
  else open_loop host.devices 0 none

/-! ## Creation and the running system -/

/-- The function `imp_push_new` when `jit_object_alloc` succeeds.  `isThreadCancel`
is not assigned by the function; `cancel0` is the value the allocator left there. -/
def imp_push_new (cancel0 : Bool) (host : UsbHost) : t_imp_push × List UsbEvent :=
  let r := imp_push_open_device host
  ({ isThreadCancel := cancel0,
     draw_buffer := zeroed PUSH2_DISPLAY_IMAGE_BUFFER_SIZE,
     send_buffer := zeroed PUSH2_DISPLAY_IMAGE_BUFFER_SIZE,
     device := r.1,
     is_matrix_received := false }, r.2)

/-- What can happen to a created object: the sender thread runs one iteration (with
the results its transfers will get), or the host delivers a matrix. -/
inductive Action where
  | thread_iteration (header_result : Int) (result : Nat → Int)
  | matrix_calc (in_matrix : Option t_jit_matrix)

/-- Effect of one action on the object, with the events it causes. -/
def step (x : t_imp_push) : Action → t_imp_push × List Event
  | Action.thread_iteration hr res => (x, threadproc_iteration x hr res)
  | Action.matrix_calc m =>
    let r := imp_push_matrix_calc x m
    (r.state, r.events)

/-- Effect of a sequence of actions. -/
def run (x : t_imp_push) : List Action → t_imp_push × List Event
  | [] => (x, [])
  | a :: rest =>
    let r := step x a
    let r2 := run r.1 rest
    (r2.1, r.2 ++ r2.2)

/-! ## Concrete inputs on which the theorems are instantiated -/

/-- The byte at offset `a` of the sample image: pixels 0, 1, 2 of row 0 carry, in
channels 1 to 3, the values 0x00, 0xFF and the mid-range triple 0x5A, 0xA5, 0x3C;
channel 0 is 0x77 everywhere. -/
def sample_byte (a : Nat) : Nat :=
  if a = 5 ∨ a = 6 ∨ a = 7 then 0xFF
  else if a = 9 then 0x5A
  else if a = 10 then 0xA5
  else if a = 11 then 0x3C
  else if a % 4 = 0 then 0x77
  else 0

/-- A 960 x 160 image of 4 channels, 614400 bytes. -/
def sample_image : Mem := Array.ofFn (fun (a : Fin 614400) => sample_byte a.val)

/-- A streaming object (device handle 0, a frame received) whose two buffers are
filled with the sentinel 0xEE. -/
def sample_state : t_imp_push :=
  { isThreadCancel := false,
    draw_buffer := mkArray 327680 0xEE,
    send_buffer := mkArray 327680 0xEE,
    device := some 0,
    is_matrix_received := true }

/-- Transfer results in which message index 6 (the 7th message) fails with
`LIBUSB_ERROR_TIMEOUT` (-7) and every other message succeeds. -/
def fail_on_seventh : Nat → Int := fun i => if i = 6 then -7 else 0

/-- A device list entry for a Push 2 whose open succeeds and whose claim fails with
`LIBUSB_ERROR_BUSY` (-6). -/
def busy_push2 : UsbDevice :=
  { descriptor_result := 0,
    descriptor := { bDeviceClass := 0, idVendor := 0x2982, idProduct := 0x1967 },
    open_result := 0,
    claim_result := -6 }

/-- A device list entry that is not a Push 2. -/
def other_device : UsbDevice :=
  { descriptor_result := 0,
    descriptor := { bDeviceClass := 9, idVendor := 0x1d6b, idProduct := 0x0002 },
    open_result := 0,
    claim_result := 0 }

/-- A host on which libusb starts and lists a hub followed by a busy Push 2. -/
def busy_host : UsbHost :=
  { init_result := 0, list_result := 2, devices := [other_device, busy_push2] }

/-- A device list entry for a Push 2 that opens and whose interface 0 can be claimed. -/
def free_push2 : UsbDevice :=
  { descriptor_result := 0,
    descriptor := { bDeviceClass := 0, idVendor := 0x2982, idProduct := 0x1967 },
    open_result := 0,
    claim_result := 0 }

/-- A host on which libusb starts and lists one available Push 2. -/
def push2_host : UsbHost := { init_result := 0, list_result := 1, devices := [free_push2] }

/-- A host on which libusb starts and lists no device. -/
def empty_host : UsbHost := { init_result := 0, list_result := 0, devices := [] }


/-! ## Lemmas: memory -/

theorem load_setD (m : Mem) (off v a : Nat) :
    load_u8 (m.setD off v) a = if a = off ∧ off < m.size then v else load_u8 m a := by
  unfold load_u8
  simp only [Array.getD_eq_get?, Array.setD]
  by_cases h : off < m.size
  · simp only [h, dite_true, and_true]
    by_cases e : a = off
    · subst e
      rw [Array.get?_set_eq]
      simp
    · simp only [e, if_false]
      rw [Array.get?_set_ne]
      simp only [ne_eq]
      omega
  · simp [h]

theorem load_mkArray (n v a : Nat) : load_u8 (mkArray n v) a = if a < n then v else 0 := by
  unfold load_u8
  simp only [Array.getD_eq_get?, Array.getElem?_mkArray]
  split_ifs <;> simp

theorem load_ofFn (n : Nat) (f : Fin n → Nat) (a : Nat) (h : a < n) :
    load_u8 (Array.ofFn f) a = f ⟨a, h⟩ := by
  unfold load_u8
  rw [Array.getD_eq_get?, Array.getElem?_eq_getElem (by simpa using h)]
  simp

theorem load_out_of_range (m : Mem) (a : Nat) (h : m.size ≤ a) : load_u8 m a = 0 := by
  unfold load_u8 Array.getD
  rw [dif_neg (by omega)]

theorem store_u8_size (m : Mem) (off v : Nat) : (store_u8 m off v).size = m.size := by
  simp [store_u8]

theorem store_u8_other (m : Mem) (off v a : Nat) (h : a ≠ off) :
    load_u8 (store_u8 m off v) a = load_u8 m a := by
  simp [store_u8, load_setD, h]

theorem store_u8_same (m : Mem) (off v : Nat) (h : off < m.size) :
    load_u8 (store_u8 m off v) off = v % 256 := by
  simp [store_u8, load_setD, h]

theorem store_u16_size (m : Mem) (off v : Nat) : (store_u16 m off v).size = m.size := by
  simp [store_u16]

theorem store_u16_other (m : Mem) (off v a : Nat) (h : a < off ∨ off + 2 ≤ a) :
    load_u8 (store_u16 m off v) a = load_u8 m a := by
  have h1 : a ≠ off := by omega
  have h2 : a ≠ off + 1 := by omega
  simp [store_u16, load_setD, h1, h2]

theorem store_u16_lo (m : Mem) (off v : Nat) (h : off + 1 < m.size) :
    load_u8 (store_u16 m off v) off = (v % 65536) % 256 := by
  have h1 : off < m.size := by omega
  simp [store_u16, load_setD, h1]

theorem store_u16_hi (m : Mem) (off v : Nat) (h : off + 1 < m.size) :
    load_u8 (store_u16 m off v) (off + 1) = (v % 65536) / 256 := by
  simp [store_u16, load_setD, h]

/-! ## Lemmas: pixel converter -/

theorem calc_row_src (in_bp : Mem) (n : Nat) (c : CalcCursor) :
    (calc_row in_bp n c).src = c.src + 4 * n := by
  induction n generalizing c with
  | zero => simp [calc_row]
  | succ n ih => rw [calc_row, ih]; simp only []; omega

theorem calc_row_dst (in_bp : Mem) (n : Nat) (c : CalcCursor) :
    (calc_row in_bp n c).dst = c.dst + 2 * n := by
  induction n generalizing c with
  | zero => simp [calc_row]
  | succ n ih => rw [calc_row, ih]; simp only []; omega

theorem calc_row_size (in_bp : Mem) (n : Nat) (c : CalcCursor) :
    (calc_row in_bp n c).draw.size = c.draw.size := by
  induction n generalizing c with
  | zero => simp [calc_row]
  | succ n ih => rw [calc_row, ih]; exact store_u16_size _ _ _

theorem calc_row_frame (in_bp : Mem) (n : Nat) (c : CalcCursor) (a : Nat)
    (h : a < c.dst ∨ c.dst + 2 * n ≤ a) :
    load_u8 (calc_row in_bp n c).draw a = load_u8 c.draw a := by
  induction n generalizing c with
  | zero => simp [calc_row]
  | succ n ih =>
    rw [calc_row, ih]
    · exact store_u16_other _ _ _ _ (by omega)
    · simp only []; omega

theorem calc_row_written (in_bp : Mem) (n : Nat) (c : CalcCursor) (k : Nat) (hk : k < n)
    (hb : c.dst + 2 * n ≤ c.draw.size) :
    load_u8 (calc_row in_bp n c).draw (c.dst + 2 * k)
        = (pack_pixel (load_u8 in_bp (c.src + 4 * k + 1)) (load_u8 in_bp (c.src + 4 * k + 2))
            (load_u8 in_bp (c.src + 4 * k + 3)) % 65536) % 256
    ∧ load_u8 (calc_row in_bp n c).draw (c.dst + 2 * k + 1)
        = (pack_pixel (load_u8 in_bp (c.src + 4 * k + 1)) (load_u8 in_bp (c.src + 4 * k + 2))
            (load_u8 in_bp (c.src + 4 * k + 3)) % 65536) / 256 := by
  induction n generalizing c k with
  | zero => omega
  | succ n ih =>
    rw [calc_row]
    cases k with
    | zero =>
      constructor
      · rw [calc_row_frame _ _ _ _ (by simp only []; omega)]
        simp only [Nat.mul_zero, Nat.add_zero]
        exact store_u16_lo _ _ _ (by omega)
      · rw [calc_row_frame _ _ _ _ (by simp only []; omega)]
        simp only [Nat.mul_zero, Nat.add_zero]
        exact store_u16_hi _ _ _ (by omega)
    | succ k =>
      have h := ih { src := c.src + 4, dst := c.dst + 2,
                     draw := store_u16 c.draw c.dst
                       (pack_pixel (load_u8 in_bp (c.src + 1)) (load_u8 in_bp (c.src + 2))
                         (load_u8 in_bp (c.src + 3))) }
                  k (by omega) (by simp only [store_u16_size]; omega)
      simp only [] at h
      have e1 : c.dst + 2 + 2 * k = c.dst + 2 * (k + 1) := by omega
      have e2 : c.src + 4 + 4 * k = c.src + 4 * (k + 1) := by omega
      rw [e1, e2] at h
      exact h

theorem width_eq : PUSH2_DISPLAY_WIDTH = 960 := rfl

theorem height_eq : PUSH2_DISPLAY_HEIGHT = 160 := rfl

theorem line_size_eq : PUSH2_DISPLAY_LINE_BUFFER_SIZE = 2048 := rfl

theorem gutter_eq : PUSH2_DISPLAY_LINE_GUTTER_SIZE = 128 := rfl

theorem image_size_eq : PUSH2_DISPLAY_IMAGE_BUFFER_SIZE = 327680 := by decide

theorem calc_rows_dst (in_bp : Mem) (n : Nat) (c : CalcCursor) :
    (calc_rows in_bp n c).dst = c.dst + 2048 * n := by
  have hW := width_eq
  have hG := gutter_eq
  induction n generalizing c with
  | zero => simp [calc_rows]
  | succ n ih =>
    rw [calc_rows, ih]
    have hd := calc_row_dst in_bp PUSH2_DISPLAY_WIDTH c
    generalize calc_row in_bp PUSH2_DISPLAY_WIDTH c = c1 at hd
    simp only []
    omega

theorem calc_rows_size (in_bp : Mem) (n : Nat) (c : CalcCursor) :
    (calc_rows in_bp n c).draw.size = c.draw.size := by
  induction n generalizing c with
  | zero => simp [calc_rows]
  | succ n ih =>
    rw [calc_rows, ih]
    have hs := calc_row_size in_bp PUSH2_DISPLAY_WIDTH c
    generalize calc_row in_bp PUSH2_DISPLAY_WIDTH c = c1 at hs
    exact hs

theorem calc_rows_frame (in_bp : Mem) (n : Nat) (c : CalcCursor) (a : Nat)
    (h : ∀ r, r < n → ¬ (c.dst + 2048 * r ≤ a ∧ a < c.dst + 2048 * r + 1920)) :
    load_u8 (calc_rows in_bp n c).draw a = load_u8 c.draw a := by
  have hW := width_eq
  have hG := gutter_eq
  induction n generalizing c with
  | zero => simp [calc_rows]
  | succ n ih =>
    rw [calc_rows]
    have hd := calc_row_dst in_bp PUSH2_DISPLAY_WIDTH c
    have hf := calc_row_frame in_bp PUSH2_DISPLAY_WIDTH c a
    generalize calc_row in_bp PUSH2_DISPLAY_WIDTH c = c1 at hd hf
    rw [ih]
    · simp only []
      apply hf
      have h0 := h 0 (by omega)
      omega
    · intro r hr
      have h1 := h (r + 1) (by omega)
      simp only []
      omega

theorem calc_rows_written (in_bp : Mem) (n : Nat) (c : CalcCursor) (r k : Nat)
    (hr : r < n) (hk : k < 960) (hb : c.dst + 2048 * n ≤ c.draw.size) :
    load_u8 (calc_rows in_bp n c).draw (c.dst + 2048 * r + 2 * k)
        = (pack_pixel (load_u8 in_bp (c.src + 4 * (960 * r + k) + 1))
            (load_u8 in_bp (c.src + 4 * (960 * r + k) + 2))
            (load_u8 in_bp (c.src + 4 * (960 * r + k) + 3)) % 65536) % 256
    ∧ load_u8 (calc_rows in_bp n c).draw (c.dst + 2048 * r + 2 * k + 1)
        = (pack_pixel (load_u8 in_bp (c.src + 4 * (960 * r + k) + 1))
            (load_u8 in_bp (c.src + 4 * (960 * r + k) + 2))
            (load_u8 in_bp (c.src + 4 * (960 * r + k) + 3)) % 65536) / 256 := by
  have hW := width_eq
  have hG := gutter_eq
  induction n generalizing c r with
  | zero => omega
  | succ n ih =>
    rw [calc_rows]
    have hd := calc_row_dst in_bp PUSH2_DISPLAY_WIDTH c
    have hs := calc_row_src in_bp PUSH2_DISPLAY_WIDTH c
    have hz := calc_row_size in_bp PUSH2_DISPLAY_WIDTH c
    have hw := calc_row_written in_bp PUSH2_DISPLAY_WIDTH c k (by omega) (by omega)
    generalize calc_row in_bp PUSH2_DISPLAY_WIDTH c = c1 at hd hs hz hw
    cases r with
    | zero =>
      simp only [Nat.mul_zero, Nat.add_zero, Nat.zero_add]
      constructor
      · rw [calc_rows_frame]
        · exact hw.1
        · intro r _
          simp only []
          omega
      · rw [calc_rows_frame]
        · exact hw.2
        · intro r _
          simp only []
          omega
    | succ r =>
      have h := ih { src := c1.src,
                     dst := c1.dst + 2 * (PUSH2_DISPLAY_LINE_GUTTER_SIZE / 2),
                     draw := c1.draw } r (by omega) (by simp only []; omega)
      simp only [hd, hs] at h
      have e1 : c.dst + 2 * PUSH2_DISPLAY_WIDTH + 2 * (PUSH2_DISPLAY_LINE_GUTTER_SIZE / 2)
          + 2048 * r + 2 * k = c.dst + 2048 * (r + 1) + 2 * k := by omega
      have e2 : c.src + 4 * PUSH2_DISPLAY_WIDTH + 4 * (960 * r + k)
          = c.src + 4 * (960 * (r + 1) + k) := by omega
      rw [e1, e2] at h
      simp only [hd, hs]
      exact h

/-! ## Lemmas: frame shaper -/

theorem mask_group_src (draw : Mem) (c : MaskCursor) :
    (mask_group draw c).src = c.src + 4 := rfl

theorem mask_group_dst (draw : Mem) (c : MaskCursor) :
    (mask_group draw c).dst = c.dst + 4 := rfl

theorem mask_group_size (draw : Mem) (c : MaskCursor) :
    (mask_group draw c).send.size = c.send.size := by
  simp only [mask_group, store_u8_size]

theorem mask_group_frame (draw : Mem) (c : MaskCursor) (a : Nat)
    (h : a < c.dst ∨ c.dst + 4 ≤ a) :
    load_u8 (mask_group draw c).send a = load_u8 c.send a := by
  simp only [mask_group]
  rw [store_u8_other _ _ _ _ (by omega), store_u8_other _ _ _ _ (by omega),
    store_u8_other _ _ _ _ (by omega), store_u8_other _ _ _ _ (by omega)]

theorem mask_group_written (draw : Mem) (c : MaskCursor) (j : Nat) (hj : j < 4)
    (hb : c.dst + 4 ≤ c.send.size) :
    load_u8 (mask_group draw c).send (c.dst + j)
      = (load_u8 draw (c.src + j) ^^^ [0xE7, 0xF3, 0xE7, 0xFF].getD (j % 4) 0) % 256 := by
  simp only [mask_group]
  interval_cases j
  · rw [store_u8_other _ _ _ _ (by omega), store_u8_other _ _ _ _ (by omega),
      store_u8_other _ _ _ _ (by omega), Nat.add_zero,
      store_u8_same _ _ _ (by omega)]
    simp [PUSH2_DISPLAY_SHAPING_PATTERN_1]
  · rw [store_u8_other _ _ _ _ (by omega), store_u8_other _ _ _ _ (by omega),
      store_u8_same _ _ _ (by simp only [store_u8_size]; omega)]
    simp [PUSH2_DISPLAY_SHAPING_PATTERN_2]
  · rw [store_u8_other _ _ _ _ (by omega),
      store_u8_same _ _ _ (by simp only [store_u8_size]; omega)]
    simp [PUSH2_DISPLAY_SHAPING_PATTERN_3]
  · rw [store_u8_same _ _ _ (by simp only [store_u8_size]; omega)]
    simp [PUSH2_DISPLAY_SHAPING_PATTERN_4]

theorem mask_groups_src (draw : Mem) (n : Nat) (c : MaskCursor) :
    ((mask_group draw)^[n] c).src = c.src + 4 * n := by
  induction n generalizing c with
  | zero => simp
  | succ n ih => rw [Function.iterate_succ_apply, ih, mask_group_src]; omega

theorem mask_groups_dst (draw : Mem) (n : Nat) (c : MaskCursor) :
    ((mask_group draw)^[n] c).dst = c.dst + 4 * n := by
  induction n generalizing c with
  | zero => simp
  | succ n ih => rw [Function.iterate_succ_apply, ih, mask_group_dst]; omega

theorem mask_groups_size (draw : Mem) (n : Nat) (c : MaskCursor) :
    ((mask_group draw)^[n] c).send.size = c.send.size := by
  induction n generalizing c with
  | zero => simp
  | succ n ih => rw [Function.iterate_succ_apply, ih, mask_group_size]

theorem mask_groups_frame (draw : Mem) (n : Nat) (c : MaskCursor) (a : Nat)
    (h : a < c.dst ∨ c.dst + 4 * n ≤ a) :
    load_u8 ((mask_group draw)^[n] c).send a = load_u8 c.send a := by
  induction n generalizing c with
  | zero => simp
  | succ n ih =>
    rw [Function.iterate_succ_apply, ih]
    · exact mask_group_frame draw c a (by omega)
    · rw [mask_group_dst]; omega

theorem mask_groups_written (draw : Mem) (n : Nat) (c : MaskCursor) (j : Nat)
    (hj : j < 4 * n) (hb : c.dst + 4 * n ≤ c.send.size) :
    load_u8 ((mask_group draw)^[n] c).send (c.dst + j)
      = (load_u8 draw (c.src + j) ^^^ [0xE7, 0xF3, 0xE7, 0xFF].getD (j % 4) 0) % 256 := by
  induction n generalizing c j with
  | zero => omega
  | succ n ih =>
    rw [Function.iterate_succ_apply]
    by_cases h4 : j < 4
    · rw [mask_groups_frame _ _ _ _ (by rw [mask_group_dst]; omega)]
      exact mask_group_written draw c j h4 (by omega)
    · have h := ih (mask_group draw c) (j - 4) (by omega)
        (by rw [mask_group_dst, mask_group_size]; omega)
      rw [mask_group_dst, mask_group_src] at h
      have e1 : c.dst + 4 + (j - 4) = c.dst + j := by omega
      have e2 : c.src + 4 + (j - 4) = c.src + j := by omega
      have e3 : (j - 4) % 4 = j % 4 := by omega
      rw [e1, e2, e3] at h
      exact h

/-- With enough fuel the guarded loop runs the body once per group of the line. -/
theorem mask_line_eq_iterate (draw : Mem) (n fuel dX : Nat) (c : MaskCursor)
    (hd : dX + 4 * n = 1920) (hf : n ≤ fuel) :
    mask_line draw fuel dX c = (mask_group draw)^[n] c := by
  have hL := line_size_eq
  have hG := gutter_eq
  induction n generalizing fuel dX c with
  | zero =>
    cases fuel with
    | zero => simp [mask_line]
    | succ fuel =>
      rw [mask_line, if_neg (by omega)]
      simp
  | succ n ih =>
    cases fuel with
    | zero => omega
    | succ fuel =>
      rw [mask_line, if_pos (by omega), Function.iterate_succ_apply]
      exact ih fuel (dX + 4) (mask_group draw c) (by omega) (by omega)

theorem mask_line_full (draw : Mem) (c : MaskCursor) :
    mask_line draw PUSH2_DISPLAY_LINE_BUFFER_SIZE 0 c = (mask_group draw)^[480] c :=
  mask_line_eq_iterate draw 480 PUSH2_DISPLAY_LINE_BUFFER_SIZE 0 c (by omega)
    (by have hL := line_size_eq; omega)

theorem mask_lines_size (draw : Mem) (n : Nat) (c : MaskCursor) :
    (mask_lines draw n c).send.size = c.send.size := by
  induction n generalizing c with
  | zero => simp [mask_lines]
  | succ n ih =>
    rw [mask_lines, mask_line_full, ih]
    have hz := mask_groups_size draw 480 c
    generalize (mask_group draw)^[480] c = c1 at hz
    exact hz

theorem mask_lines_frame (draw : Mem) (n : Nat) (c : MaskCursor) (a : Nat)
    (h : ∀ r, r < n → ¬ (c.dst + 2048 * r ≤ a ∧ a < c.dst + 2048 * r + 1920)) :
    load_u8 (mask_lines draw n c).send a = load_u8 c.send a := by
  have hG := gutter_eq
  induction n generalizing c with
  | zero => simp [mask_lines]
  | succ n ih =>
    rw [mask_lines, mask_line_full]
    have hd := mask_groups_dst draw 480 c
    have hf := mask_groups_frame draw 480 c a
    generalize (mask_group draw)^[480] c = c1 at hd hf
    rw [ih]
    · simp only []
      apply hf
      have h0 := h 0 (by omega)
      omega
    · intro r hr
      have h1 := h (r + 1) (by omega)
      simp only []
      omega

theorem mask_lines_written (draw : Mem) (n : Nat) (c : MaskCursor) (r j : Nat)
    (hr : r < n) (hj : j < 1920) (hb : c.dst + 2048 * n ≤ c.send.size) :
    load_u8 (mask_lines draw n c).send (c.dst + 2048 * r + j)
      = (load_u8 draw (c.src + 2048 * r + j)
          ^^^ [0xE7, 0xF3, 0xE7, 0xFF].getD (j % 4) 0) % 256 := by
  have hG := gutter_eq
  induction n generalizing c r with
  | zero => omega
  | succ n ih =>
    rw [mask_lines, mask_line_full]
    have hd := mask_groups_dst draw 480 c
    have hs := mask_groups_src draw 480 c
    have hz := mask_groups_size draw 480 c
    have hw := mask_groups_written draw 480 c j (by omega) (by omega)
    generalize (mask_group draw)^[480] c = c1 at hd hs hz hw
    cases r with
    | zero =>
      simp only [Nat.mul_zero, Nat.add_zero]
      rw [mask_lines_frame]
      · exact hw
      · intro r _
        simp only []
        omega
    | succ r =>
      have h := ih { src := c1.src + PUSH2_DISPLAY_LINE_GUTTER_SIZE,
                     dst := c1.dst + PUSH2_DISPLAY_LINE_GUTTER_SIZE,
                     send := c1.send } r (by omega) (by simp only []; omega)
      simp only [hd, hs] at h
      have e1 : c.dst + 4 * 480 + PUSH2_DISPLAY_LINE_GUTTER_SIZE + 2048 * r + j
          = c.dst + 2048 * (r + 1) + j := by omega
      have e2 : c.src + 4 * 480 + PUSH2_DISPLAY_LINE_GUTTER_SIZE + 2048 * r + j
          = c.src + 2048 * (r + 1) + j := by omega
      rw [e1, e2] at h
      simp only [hd, hs]
      exact h

/-! ## Lemmas: the two buffer operations on the object state -/

theorem calc_rows_written_origin (in_bp draw : Mem) (n r k : Nat) (hr : r < n) (hk : k < 960)
    (hb : 2048 * n ≤ draw.size) :
    load_u8 (calc_rows in_bp n { src := 0, dst := 0, draw := draw }).draw (2048 * r + 2 * k)
        = (pack_pixel (load_u8 in_bp (4 * (960 * r + k) + 1))
            (load_u8 in_bp (4 * (960 * r + k) + 2))
            (load_u8 in_bp (4 * (960 * r + k) + 3)) % 65536) % 256
    ∧ load_u8 (calc_rows in_bp n { src := 0, dst := 0, draw := draw }).draw
          (2048 * r + 2 * k + 1)
        = (pack_pixel (load_u8 in_bp (4 * (960 * r + k) + 1))
            (load_u8 in_bp (4 * (960 * r + k) + 2))
            (load_u8 in_bp (4 * (960 * r + k) + 3)) % 65536) / 256 := by
  have h := calc_rows_written in_bp n { src := 0, dst := 0, draw := draw } r k hr hk
    (by simp only []; omega)
  simp only [Nat.zero_add] at h
  exact h

theorem mask_lines_written_origin (draw send : Mem) (n r j : Nat) (hr : r < n) (hj : j < 1920)
    (hb : 2048 * n ≤ send.size) :
    load_u8 (mask_lines draw n { src := 0, dst := 0, send := send }).send (2048 * r + j)
      = (load_u8 draw (2048 * r + j) ^^^ [0xE7, 0xF3, 0xE7, 0xFF].getD (j % 4) 0) % 256 := by
  have h := mask_lines_written draw n { src := 0, dst := 0, send := send } r j hr hj
    (by simp only []; omega)
  simp only [Nat.zero_add] at h
  exact h

theorem pack_pixel_lt (c1 c2 c3 : Nat) (h1 : c1 < 256) :
    pack_pixel c1 c2 c3 < 65536 := by
  unfold pack_pixel
  have a1 : c1 >>> 3 < 2 ^ 16 := by
    rw [Nat.shiftRight_eq_div_pow]
    have : c1 / 2 ^ 3 ≤ c1 := Nat.div_le_self _ _
    omega
  have a2 : (c2 &&& 0xFC) <<< 3 < 2 ^ 16 := by
    rw [Nat.shiftLeft_eq]
    have : c2 &&& 0xFC ≤ 0xFC := Nat.and_le_right
    omega
  have a3 : (c3 &&& 0xF8) <<< 8 < 2 ^ 16 := by
    rw [Nat.shiftLeft_eq]
    have : c3 &&& 0xF8 ≤ 0xF8 := Nat.and_le_right
    omega
  exact Nat.or_lt_two_pow (Nat.or_lt_two_pow a1 a2) a3

theorem copyandmask_draw (x : t_imp_push) :
    (imp_push_copyandmask_buffer x).1.draw_buffer = x.draw_buffer := by
  cases x
  rw [imp_push_copyandmask_buffer]

theorem copyandmask_send_size (x : t_imp_push) :
    (imp_push_copyandmask_buffer x).1.send_buffer.size = x.send_buffer.size := by
  simp only [imp_push_copyandmask_buffer]
  exact mask_lines_size _ _ _

theorem copyandmask_send_written (x : t_imp_push) (hs : x.send_buffer.size = 327680)
    (y j : Nat) (hy : y < 160) (hj : j < 1920) :
    load_u8 (imp_push_copyandmask_buffer x).1.send_buffer (y * 2048 + j)
      = (load_u8 x.draw_buffer (y * 2048 + j)
          ^^^ [0xE7, 0xF3, 0xE7, 0xFF].getD (j % 4) 0) % 256 := by
  have hH := height_eq
  have hy2 : y < PUSH2_DISPLAY_HEIGHT := by omega
  have hb : 2048 * PUSH2_DISPLAY_HEIGHT ≤ x.send_buffer.size := by omega
  simp only [imp_push_copyandmask_buffer]
  rw [Nat.mul_comm y 2048]
  exact mask_lines_written_origin x.draw_buffer x.send_buffer PUSH2_DISPLAY_HEIGHT y j hy2 hj hb

theorem copyandmask_send_frame (x : t_imp_push) (a : Nat)
    (h : ¬ (a / 2048 < 160 ∧ a % 2048 < 1920)) :
    load_u8 (imp_push_copyandmask_buffer x).1.send_buffer a = load_u8 x.send_buffer a := by
  have hH := height_eq
  simp only [imp_push_copyandmask_buffer]
  rw [mask_lines_frame]
  intro r hr
  simp only [Nat.zero_add]
  omega

theorem matrix_calc_draw_written (x : t_imp_push) (in_bp : Mem)
    (hs : x.draw_buffer.size = 327680) (r c : Nat) (hr : r < 160) (hc : c < 960) :
    load_u8 (imp_push_matrix_calc x (some { data := some in_bp })).state.draw_buffer
          (r * 2048 + 2 * c)
        = (pack_pixel (load_u8 in_bp (4 * (960 * r + c) + 1))
            (load_u8 in_bp (4 * (960 * r + c) + 2))
            (load_u8 in_bp (4 * (960 * r + c) + 3)) % 65536) % 256
    ∧ load_u8 (imp_push_matrix_calc x (some { data := some in_bp })).state.draw_buffer
          (r * 2048 + 2 * c + 1)
        = (pack_pixel (load_u8 in_bp (4 * (960 * r + c) + 1))
            (load_u8 in_bp (4 * (960 * r + c) + 2))
            (load_u8 in_bp (4 * (960 * r + c) + 3)) % 65536) / 256 := by
  have hH := height_eq
  have hr2 : r < PUSH2_DISPLAY_HEIGHT := by omega
  have hb : 2048 * PUSH2_DISPLAY_HEIGHT ≤ x.draw_buffer.size := by omega
  simp only [imp_push_matrix_calc, imp_push_copyandmask_buffer]
  rw [Nat.mul_comm r 2048]
  exact calc_rows_written_origin in_bp x.draw_buffer PUSH2_DISPLAY_HEIGHT r c hr2 hc hb

theorem matrix_calc_draw_frame (x : t_imp_push) (in_bp : Mem) (a : Nat)
    (h : ¬ (a / 2048 < 160 ∧ a % 2048 < 1920)) :
    load_u8 (imp_push_matrix_calc x (some { data := some in_bp })).state.draw_buffer a
      = load_u8 x.draw_buffer a := by
  have hH := height_eq
  simp only [imp_push_matrix_calc, imp_push_copyandmask_buffer]
  rw [calc_rows_frame]
  intro r hr
  simp only [Nat.zero_add]
  omega

theorem matrix_calc_draw_size (x : t_imp_push) (in_bp : Mem) :
    (imp_push_matrix_calc x (some { data := some in_bp })).state.draw_buffer.size
      = x.draw_buffer.size := by
  cases x
  simp only [imp_push_matrix_calc, imp_push_copyandmask_buffer]
  exact calc_rows_size _ _ _

theorem matrix_calc_send_frame (x : t_imp_push) (m : Option t_jit_matrix) (a : Nat)
    (h : ¬ (a / 2048 < 160 ∧ a % 2048 < 1920)) :
    load_u8 (imp_push_matrix_calc x m).state.send_buffer a = load_u8 x.send_buffer a := by
  cases m with
  | none => rfl
  | some m =>
    cases m with
    | mk data =>
      cases data with
      | none => rfl
      | some in_bp =>
        simp only [imp_push_matrix_calc]
        rw [copyandmask_send_frame _ _ h]

theorem matrix_calc_draw_frame_any (x : t_imp_push) (m : Option t_jit_matrix) (a : Nat)
    (h : ¬ (a / 2048 < 160 ∧ a % 2048 < 1920)) :
    load_u8 (imp_push_matrix_calc x m).state.draw_buffer a = load_u8 x.draw_buffer a := by
  cases m with
  | none => rfl
  | some m =>
    cases m with
    | mk data =>
      cases data with
      | none => rfl
      | some in_bp => exact matrix_calc_draw_frame x in_bp a h

theorem matrix_calc_device (x : t_imp_push) (m : Option t_jit_matrix) :
    (imp_push_matrix_calc x m).state.device = x.device := by
  cases m with
  | none => rfl
  | some m =>
    cases m with
    | mk data =>
      cases data with
      | none => rfl
      | some in_bp =>
        cases x
        simp only [imp_push_matrix_calc, imp_push_copyandmask_buffer]

theorem pattern_byte_lt (j : Nat) : [0xE7, 0xF3, 0xE7, 0xFF].getD (j % 4) 0 < 256 := by
  have h : j % 4 < 4 := Nat.mod_lt _ (by decide)
  generalize j % 4 = k at h
  interval_cases k <;> simp

theorem xor_byte_mod (d p : Nat) (hd : d < 256) (hp : p < 256) : (d ^^^ p) % 256 = d ^^^ p := by
  apply Nat.mod_eq_of_lt
  exact @Nat.xor_lt_two_pow d p 8 hd hp

theorem step_frame (x : t_imp_push) (act : Action) (a : Nat)
    (h : ¬ (a / 2048 < 160 ∧ a % 2048 < 1920)) :
    load_u8 (step x act).1.send_buffer a = load_u8 x.send_buffer a
      ∧ load_u8 (step x act).1.draw_buffer a = load_u8 x.draw_buffer a := by
  cases act with
  | thread_iteration hr res => exact ⟨rfl, rfl⟩
  | matrix_calc m =>
    exact ⟨matrix_calc_send_frame x m a h, matrix_calc_draw_frame_any x m a h⟩

theorem run_frame (x : t_imp_push) (acts : List Action) (a : Nat)
    (h : ¬ (a / 2048 < 160 ∧ a % 2048 < 1920)) :
    load_u8 (run x acts).1.send_buffer a = load_u8 x.send_buffer a
      ∧ load_u8 (run x acts).1.draw_buffer a = load_u8 x.draw_buffer a := by
  induction acts generalizing x with
  | nil => exact ⟨rfl, rfl⟩
  | cons act rest ih =>
    have h1 := step_frame x act a h
    have h2 := ih (step x act).1
    simp only [run]
    generalize step x act = r at h1 h2 ⊢
    exact ⟨h2.1.trans h1.1, h2.2.trans h1.2⟩

/-! ## Lemmas: frame transport -/

theorem message_event_eq (dev : Nat) (send : Mem) (i : Nat) :
    message_event dev send i
      = Event.bulk_transfer dev 1 (read_bytes send (i * 16384) 16384) 16384 1000 := by
  simp only [message_event, PUSH2_BULK_EP_OUT, PUSH2_DISPLAY_MESSAGE_BUFFER_SIZE,
    PUSH2_TRANSFER_TIMEOUT]

theorem header_event_eq (dev : Nat) :
    header_event dev
      = Event.bulk_transfer dev 1
          [0xFF, 0xCC, 0xAA, 0x88, 0x00, 0x00, 0x00, 0x00,
           0x00, 0x00, 0x00, 0x00, 0x00, 0x00, 0x00, 0x00] 16 1000 := by
  simp only [header_event, PUSH2_BULK_EP_OUT, PUSH2_DISPLAY_FRAME_HEADER,
    PUSH2_TRANSFER_TIMEOUT, List.length_cons, List.length_nil]

theorem messages_per_image_eq : PUSH2_DISPLAY_MESSAGES_PER_IMAGE = 20 := by decide

theorem frame_sleep_eq : 1000 / PUSH2_DISPLAY_FRAMERATE = 16 := by decide

theorem map_range_shift (f : Nat → Event) (i0 n : Nat) :
    f i0 :: (List.range n).map (fun k => f (i0 + 1 + k))
      = (List.range (n + 1)).map (fun k => f (i0 + k)) := by
  rw [List.range_succ_eq_map, List.map_cons, List.map_map]
  congr 1
  apply List.map_congr_left
  intro k _
  simp only [Function.comp, Nat.succ_eq_add_one]
  congr 1
  omega

/-- When all remaining transfers succeed the loop sends every remaining message. -/
theorem send_messages_all_ok (dev : Nat) (send : Mem) (result : Nat → Int) (n i0 : Nat)
    (h : ∀ i, i0 ≤ i → i < i0 + n → result i = 0) :
    send_messages dev send result n i0
      = (List.range n).map (fun k => message_event dev send (i0 + k)) := by
  induction n generalizing i0 with
  | zero => simp [send_messages]
  | succ n ih =>
    have h0 : result i0 = 0 := h i0 (by omega) (by omega)
    rw [send_messages, if_neg (by simp [h0]), ih (i0 + 1) (fun i h1 h2 => h i (by omega) (by omega))]
    exact map_range_shift (message_event dev send) i0 n

/-- When the transfer of the message `k` places ahead is the first to fail, the loop
sends the messages up to and including that one and nothing after it. -/
theorem send_messages_first_failure (dev : Nat) (send : Mem) (result : Nat → Int)
    (n i0 k : Nat) (hk : k < n)
    (hok : ∀ i, i0 ≤ i → i < i0 + k → result i = 0) (hfail : result (i0 + k) ≠ 0) :
    send_messages dev send result n i0
      = (List.range (k + 1)).map (fun j => message_event dev send (i0 + j)) := by
  induction n generalizing i0 k with
  | zero => omega
  | succ n ih =>
    cases k with
    | zero =>
      rw [send_messages, if_pos (by simpa using hfail)]
      simp [List.range_succ]
    | succ k =>
      have h0 : result i0 = 0 := hok i0 (by omega) (by omega)
      have hf2 : result (i0 + 1 + k) ≠ 0 := by
        have e : i0 + 1 + k = i0 + (k + 1) := by omega
        rw [e]; exact hfail
      rw [send_messages, if_neg (by simp [h0]),
        ih (i0 + 1) k (by omega) (fun i h1 h2 => hok i (by omega) (by omega)) hf2]
      exact map_range_shift (message_event dev send) i0 (k + 1)

theorem read_bytes_length (m : Mem) (off len : Nat) : (read_bytes m off len).length = len := by
  simp [read_bytes]

theorem read_bytes_append (m : Mem) (off a b : Nat) :
    read_bytes m off (a + b) = read_bytes m off a ++ read_bytes m (off + a) b := by
  unfold read_bytes
  rw [List.range_add, List.map_append, List.map_map]
  congr 1
  apply List.map_congr_left
  intro k _
  simp only [Function.comp, Nat.add_assoc]

/-- Consecutive slices of equal size concatenate to the region they cover. -/
theorem read_bytes_flatten (m : Mem) (sz n : Nat) :
    ((List.range n).map (fun i => read_bytes m (i * sz) sz)).flatten
      = read_bytes m 0 (n * sz) := by
  induction n with
  | zero => simp [read_bytes]
  | succ n ih =>
    rw [List.range_succ, List.map_append, List.flatten_append, ih, Nat.succ_mul,
      read_bytes_append]
    simp

/-- Trace of a loop body on a streaming object, in terms of the data loop. -/
theorem threadproc_body_streaming (x : t_imp_push) (dev : Nat) (hr : Int) (res : Nat → Int)
    (hd : x.device = some dev) (hf : x.is_matrix_received = true) :
    threadproc_body x hr res
      = [Event.mutex_lock, header_event dev]
          ++ send_messages dev x.send_buffer res 20 0
          ++ [Event.mutex_unlock, Event.sleep 16] := by
  simp only [threadproc_body, hd, hf, if_true, messages_per_image_eq, frame_sleep_eq,
    List.append_assoc, List.cons_append, List.nil_append]

theorem threadproc_body_idle (x : t_imp_push) (hr : Int) (res : Nat → Int)
    (h : x.device = none ∨ x.is_matrix_received = false) :
    threadproc_body x hr res = [Event.sleep 16] := by
  unfold threadproc_body
  rw [frame_sleep_eq]
  cases hx : x.device with
  | none => simp
  | some dev =>
    cases h with
    | inl h => rw [hx] at h; cases h
    | inr h => simp [h]

theorem read_bytes_getElem? (m : Mem) (off len k : Nat) (hk : k < len) :
    (read_bytes m off len)[k]? = some (load_u8 m (off + k)) := by
  simp [read_bytes, List.getElem?_map, List.getElem?_range hk]

theorem step_device (x : t_imp_push) (act : Action) : (step x act).1.device = x.device := by
  cases act with
  | thread_iteration hr res => rfl
  | matrix_calc m => exact matrix_calc_device x m

theorem matrix_calc_events_no_transfer (x : t_imp_push) (m : Option t_jit_matrix)
    (e : Event) (he : e ∈ (imp_push_matrix_calc x m).events) : e.is_transfer = false := by
  cases m with
  | none => simp [imp_push_matrix_calc] at he
  | some m =>
    cases m with
    | mk data =>
      cases data with
      | none => simp [imp_push_matrix_calc] at he
      | some in_bp =>
        simp only [imp_push_matrix_calc, imp_push_copyandmask_buffer, List.mem_cons,
          List.mem_singleton, List.not_mem_nil, or_false] at he
        cases he with
        | inl h => rw [h]; rfl
        | inr h => rw [h]; rfl

theorem threadproc_iteration_idle (x : t_imp_push) (hr : Int) (res : Nat → Int)
    (h : x.device = none ∨ x.is_matrix_received = false)
    (e : Event) (he : e ∈ threadproc_iteration x hr res) : e = Event.sleep 16 := by
  unfold threadproc_iteration at he
  cases hc : x.isThreadCancel with
  | true => simp [hc] at he
  | false =>
    simp only [hc, threadproc_body_idle x hr res h, List.mem_singleton] at he
    simpa using he

theorem run_no_device (x : t_imp_push) (acts : List Action) (hd : x.device = none)
    (e : Event) (he : e ∈ (run x acts).2) : e.is_transfer = false := by
  induction acts generalizing x with
  | nil => simp [run] at he
  | cons act rest ih =>
    have hdev := step_device x act
    have hstep : ∀ e, e ∈ (step x act).2 → e.is_transfer = false := by
      intro e he
      cases act with
      | thread_iteration hr res =>
        have := threadproc_iteration_idle x hr res (Or.inl hd) e he
        rw [this]; rfl
      | matrix_calc m => exact matrix_calc_events_no_transfer x m e he
    have hrest := ih (step x act).1 (hdev.trans hd)
    simp only [run, List.mem_append] at he
    generalize step x act = r at hstep hrest he
    cases he with
    | inl h => exact hstep e h
    | inr h => exact hrest h


theorem read_bytes_all (m : Mem) : read_bytes m 0 m.size = m.toList := by
  apply List.ext_getElem?
  intro k
  by_cases hk : k < m.size
  · rw [read_bytes_getElem? m 0 m.size k hk, Nat.zero_add]
    simp [load_u8, Array.getD, hk]
  · have h1 : (read_bytes m 0 m.size).length ≤ k := by rw [read_bytes_length]; omega
    have h2 : m.toList.length ≤ k := by simp only [Array.length_toList]; omega
    rw [List.getElem?_eq_none h1, List.getElem?_eq_none h2]

theorem sample_image_size : sample_image.size = 614400 := by
  simp [sample_image]

theorem sample_image_load (a : Nat) (h : a < 614400) : load_u8 sample_image a = sample_byte a := by
  unfold sample_image
  rw [load_ofFn 614400 _ a h]

theorem sample_byte_lt (a : Nat) : sample_byte a < 256 := by
  simp only [sample_byte]
  split_ifs <;> omega

theorem sample_image_bytes : ByteValued sample_image := by
  intro a
  by_cases h : a < 614400
  · rw [sample_image_load a h]; exact sample_byte_lt a
  · rw [load_out_of_range _ _ (by rw [sample_image_size]; omega)]; omega

theorem sample_state_draw_eq : sample_state.draw_buffer = mkArray 327680 0xEE := rfl

theorem sample_state_send_eq : sample_state.send_buffer = mkArray 327680 0xEE := rfl

theorem sample_state_draw_size : sample_state.draw_buffer.size = 327680 := by
  rw [sample_state_draw_eq, Array.size_mkArray]

theorem sample_state_send_size : sample_state.send_buffer.size = 327680 := by
  rw [sample_state_send_eq, Array.size_mkArray]

theorem sample_state_draw_load (a : Nat) (h : a < 327680) :
    load_u8 sample_state.draw_buffer a = 0xEE := by
  rw [sample_state_draw_eq, load_mkArray, if_pos h]

theorem sample_state_draw_bytes : ByteValued sample_state.draw_buffer := by
  intro a
  rw [sample_state_draw_eq, load_mkArray]
  split_ifs <;> omega

/-! ## Lemmas: device enumeration -/

theorem open_loop_handles (devs : List UsbDevice) (i : Nat) (dh : Option Nat)
    (e : UsbEvent) (he : e ∈ (open_loop devs i dh).2) : i ≤ e.handle := by
  induction devs generalizing i dh with
  | nil => simp [open_loop] at he
  | cons d rest ih =>
    rw [open_loop] at he
    split_ifs at he with h1 h2 h3 h4
    · exact Nat.le_of_succ_le (ih _ _ he)
    · simp only [List.mem_cons] at he
      rcases he with rfl | he
      · exact Nat.le_refl _
      · exact Nat.le_of_succ_le (ih _ _ he)
    · simp only [List.mem_cons] at he
      rcases he with rfl | rfl | rfl | he
      · exact Nat.le_refl _
      · exact Nat.le_refl _
      · exact Nat.le_refl _
      · exact Nat.le_of_succ_le (ih _ _ he)
    · simp only [List.mem_cons, List.mem_singleton, List.not_mem_nil, or_false] at he
      rcases he with rfl | rfl
      · exact Nat.le_refl _
      · exact Nat.le_refl _
    · exact Nat.le_of_succ_le (ih _ _ he)

theorem open_loop_returned_ge (devs : List UsbDevice) (i h : Nat)
    (hret : (open_loop devs i none).1 = some h) : i ≤ h := by
  induction devs generalizing i with
  | nil => simp [open_loop] at hret
  | cons d rest ih =>
    rw [open_loop] at hret
    split_ifs at hret with h1 h2 h3 h4
    · exact Nat.le_of_succ_le (ih _ hret)
    · exact Nat.le_of_succ_le (ih _ hret)
    · exact Nat.le_of_succ_le (ih _ hret)
    · simp only [Option.some.injEq] at hret
      omega
    · exact Nat.le_of_succ_le (ih _ hret)

theorem open_loop_tail_fresh (rest : List UsbDevice) (i : Nat) (dh : Option Nat)
    (e : UsbEvent) (he : e.handle = i) : e ∉ (open_loop rest (i + 1) dh).2 := by
  intro hmem
  have := open_loop_handles rest (i + 1) dh e hmem
  omega

theorem open_loop_returned (devs : List UsbDevice) (i h : Nat)
    (hret : (open_loop devs i none).1 = some h) :
    (∃ ro, 0 ≤ ro ∧ UsbEvent.libusb_open h ro ∈ (open_loop devs i none).2)
    ∧ (∃ rc, 0 ≤ rc ∧ UsbEvent.libusb_claim_interface h 0 rc ∈ (open_loop devs i none).2)
    ∧ UsbEvent.libusb_close h ∉ (open_loop devs i none).2 := by
  induction devs generalizing i with
  | nil => simp [open_loop] at hret
  | cons d rest ih =>
    rw [open_loop] at hret ⊢
    split_ifs at hret ⊢ with h1 h2 h3 h4
    · exact ih _ hret
    · obtain ⟨⟨ro, hro, hom⟩, ⟨rc, hrc, hcm⟩, hcl⟩ := ih _ hret
      refine ⟨⟨ro, hro, List.mem_cons_of_mem _ hom⟩, ⟨rc, hrc, List.mem_cons_of_mem _ hcm⟩, ?_⟩
      simp only [List.mem_cons, not_or]
      exact ⟨by simp, hcl⟩
    · have hge := open_loop_returned_ge rest (i + 1) h hret
      obtain ⟨⟨ro, hro, hom⟩, ⟨rc, hrc, hcm⟩, hcl⟩ := ih _ hret
      refine ⟨⟨ro, hro, ?_⟩, ⟨rc, hrc, ?_⟩, ?_⟩
      · simp only [List.mem_cons]; exact Or.inr (Or.inr (Or.inr hom))
      · simp only [List.mem_cons]; exact Or.inr (Or.inr (Or.inr hcm))
      · simp only [List.mem_cons, not_or]
        refine ⟨by simp, by simp, ?_, hcl⟩
        intro heq
        simp only [UsbEvent.libusb_close.injEq] at heq
        omega
    · simp only [Option.some.injEq] at hret
      subst hret
      refine ⟨⟨d.open_result, by omega, by simp⟩, ⟨d.claim_result, by omega, by simp⟩, by simp⟩
    · exact ih _ hret

theorem open_loop_failed_claim (devs : List UsbDevice) (i h n : Nat) (rc : Int)
    (hmem : UsbEvent.libusb_claim_interface h n rc ∈ (open_loop devs i none).2)
    (hrc : rc < 0) :
    (open_loop devs i none).2.count (UsbEvent.libusb_close h) = 1
    ∧ (open_loop devs i none).1 ≠ some h := by
  induction devs generalizing i with
  | nil => simp [open_loop] at hmem
  | cons d rest ih =>
    rw [open_loop] at hmem ⊢
    split_ifs at hmem ⊢ with h1 h2 h3 h4
    · exact ih _ hmem
    · simp only [List.mem_cons] at hmem
      rcases hmem with hmem | hmem
      · cases hmem
      · have := ih _ hmem
        refine ⟨?_, this.2⟩
        rw [List.count_cons]
        simpa using this.1
    · simp only [List.mem_cons] at hmem
      rcases hmem with hmem | hmem | hmem | hmem
      · cases hmem
      · simp only [UsbEvent.libusb_claim_interface.injEq] at hmem
        obtain ⟨rfl, _, _⟩ := hmem
        have hfresh : UsbEvent.libusb_close h ∉ (open_loop rest (h + 1) none).2 :=
          open_loop_tail_fresh rest h none _ rfl
        refine ⟨?_, ?_⟩
        · simp only [List.count_cons, List.count_eq_zero.mpr hfresh]
          simp
        · intro hret
          have := open_loop_returned_ge rest (h + 1) h hret
          omega
      · cases hmem
      · have hge := open_loop_handles rest (i + 1) none _ hmem
        simp only [UsbEvent.handle] at hge
        have := ih _ hmem
        refine ⟨?_, this.2⟩
        simp only [List.count_cons, this.1]
        have hne : i ≠ h := by omega
        simp [hne]
    · simp only [List.mem_cons, List.mem_singleton, List.not_mem_nil, or_false] at hmem
      rcases hmem with hmem | hmem
      · cases hmem
      · simp only [UsbEvent.libusb_claim_interface.injEq] at hmem
        omega
    · exact ih _ hmem

theorem open_loop_opened_not_returned (devs : List UsbDevice) (i h : Nat) (ro : Int)
    (hmem : UsbEvent.libusb_open h ro ∈ (open_loop devs i none).2)
    (hro : 0 ≤ ro) (hret : (open_loop devs i none).1 ≠ some h) :
    (open_loop devs i none).2.count (UsbEvent.libusb_close h) = 1 := by
  induction devs generalizing i with
  | nil => simp [open_loop] at hmem
  | cons d rest ih =>
    rw [open_loop] at hmem hret ⊢
    split_ifs at hmem hret ⊢ with h1 h2 h3 h4
    · exact ih _ hmem hret
    · simp only [List.mem_cons] at hmem
      rcases hmem with hmem | hmem
      · simp only [UsbEvent.libusb_open.injEq] at hmem
        omega
      · have := ih _ hmem hret
        rw [List.count_cons]
        simpa using this
    · simp only [List.mem_cons] at hmem
      rcases hmem with hmem | hmem | hmem | hmem
      · simp only [UsbEvent.libusb_open.injEq] at hmem
        obtain ⟨rfl, _⟩ := hmem
        have hfresh : UsbEvent.libusb_close h ∉ (open_loop rest (h + 1) none).2 :=
          open_loop_tail_fresh rest h none _ rfl
        simp only [List.count_cons, List.count_eq_zero.mpr hfresh]
        simp
      · cases hmem
      · cases hmem
      · have hge := open_loop_handles rest (i + 1) none _ hmem
        simp only [UsbEvent.handle] at hge
        have := ih _ hmem hret
        simp only [List.count_cons, this]
        have hne : i ≠ h := by omega
        simp [hne]
    · simp only [List.mem_cons, List.mem_singleton, List.not_mem_nil, or_false] at hmem
      rcases hmem with hmem | hmem
      · simp only [UsbEvent.libusb_open.injEq] at hmem
        exact absurd (by rw [hmem.1]) hret
      · cases hmem
    · exact ih _ hmem hret

theorem is_push2_iff (d : libusb_device_descriptor) :
    is_push2 d = true
      ↔ d.bDeviceClass = 0 ∧ d.idVendor = 0x2982 ∧ d.idProduct = 0x1967 := by
  simp [is_push2, LIBUSB_CLASS_PER_INTERFACE, ABLETON_VENDOR_ID, PUSH2_PRODUCT_ID, and_assoc]

/-- Entries whose descriptor cannot be read or is not a Push 2 are passed over. -/
theorem open_loop_skip (pre rest : List UsbDevice) (i : Nat) (dh : Option Nat)
    (hpre : ∀ e ∈ pre, e.descriptor_result < 0 ∨ is_push2 e.descriptor = false) :
    open_loop (pre ++ rest) i dh = open_loop rest (i + pre.length) dh := by
  induction pre generalizing i with
  | nil => simp
  | cons d pre ih =>
    have hd := hpre d (List.mem_cons_self _ _)
    have hrest : ∀ e ∈ pre, e.descriptor_result < 0 ∨ is_push2 e.descriptor = false :=
      fun e he => hpre e (List.mem_cons_of_mem _ he)
    have e1 : i + 1 + pre.length = i + (d :: pre).length := by
      simp only [List.length_cons]; omega
    rw [List.cons_append, open_loop]
    split_ifs with h1 h2 h3 h4
    · rw [ih _ hrest, e1]
    · rcases hd with hd | hd
      · omega
      · rw [hd] at h2; cases h2
    · rcases hd with hd | hd
      · omega
      · rw [hd] at h2; cases h2
    · rcases hd with hd | hd
      · omega
      · rw [hd] at h2; cases h2
    · rw [ih _ hrest, e1]

theorem open_loop_single_busy (pre post : List UsbDevice) (d : UsbDevice)
    (hpre : ∀ e ∈ pre, e.descriptor_result < 0 ∨ is_push2 e.descriptor = false)
    (hpost : ∀ e ∈ post, e.descriptor_result < 0 ∨ is_push2 e.descriptor = false)
    (hdesc : 0 ≤ d.descriptor_result) (hmatch : is_push2 d.descriptor = true)
    (hopen : 0 ≤ d.open_result) (hclaim : d.claim_result < 0) :
    (open_loop (pre ++ d :: post) 0 none).1 = none := by
  rw [open_loop_skip pre (d :: post) 0 none hpre, open_loop,
    if_neg (by omega), if_pos hmatch, if_neg (by omega), if_pos hclaim]
  have h := open_loop_skip post [] (0 + pre.length + 1) none hpost
  rw [List.append_nil] at h
  simp only [h, open_loop]

/-! ## Claim C1 -/

/-- Claim C1: for every object with a draw buffer of 327680 bytes and every readable
input of 960 x 160 x 4 bytes (614400 8-bit values), after `imp_push_matrix_calc` the
draw-buffer bytes at offsets `r*2048 + 2*c` and `r*2048 + 2*c + 1` (row `r < 160`,
column `c < 960`) are the low and the high byte of the word
`(c1 >> 3) | ((c2 & 0xFC) << 3) | ((c3 & 0xF8) << 8)`, which fits 16 bits, where
`c1, c2, c3` are the input bytes at offsets `4*(960*r + c) + 1, + 2, + 3`. -/
theorem matrix_calc_packs_pixels (x : t_imp_push) (in_bp : Mem)
    (hdraw : x.draw_buffer.size = 327680) (_himg : in_bp.size = 614400)
    (hb : ByteValued in_bp) (r c : Nat) (hr : r < 160) (hc : c < 960) :
    load_u8 (imp_push_matrix_calc x (some { data := some in_bp })).state.draw_buffer
          (r * 2048 + 2 * c)
        = ((load_u8 in_bp (4 * (960 * r + c) + 1) >>> 3)
            ||| ((load_u8 in_bp (4 * (960 * r + c) + 2) &&& 0xFC) <<< 3)
            ||| ((load_u8 in_bp (4 * (960 * r + c) + 3) &&& 0xF8) <<< 8)) % 256
    ∧ load_u8 (imp_push_matrix_calc x (some { data := some in_bp })).state.draw_buffer
          (r * 2048 + 2 * c + 1)
        = ((load_u8 in_bp (4 * (960 * r + c) + 1) >>> 3)
            ||| ((load_u8 in_bp (4 * (960 * r + c) + 2) &&& 0xFC) <<< 3)
            ||| ((load_u8 in_bp (4 * (960 * r + c) + 3) &&& 0xF8) <<< 8)) / 256
    ∧ ((load_u8 in_bp (4 * (960 * r + c) + 1) >>> 3)
            ||| ((load_u8 in_bp (4 * (960 * r + c) + 2) &&& 0xFC) <<< 3)
            ||| ((load_u8 in_bp (4 * (960 * r + c) + 3) &&& 0xF8) <<< 8)) < 65536 := by
  have hw := matrix_calc_draw_written x in_bp hdraw r c hr hc
  have hlt := pack_pixel_lt (load_u8 in_bp (4 * (960 * r + c) + 1))
    (load_u8 in_bp (4 * (960 * r + c) + 2)) (load_u8 in_bp (4 * (960 * r + c) + 3)) (hb _)
  rw [Nat.mod_eq_of_lt hlt] at hw
  unfold pack_pixel at hw hlt
  exact ⟨hw.1, hw.2, hlt⟩

/-- Instance of C1 on `sample_image` over a sentinel-filled draw buffer: channels at
0x00 give the bytes 00 00, channels at 0xFF give FF FF, and the channels
0x5A, 0xA5, 0x3C give the word 0x3D2B stored as 2B 3D. -/
theorem matrix_calc_packs_pixels_witness :
    load_u8 (imp_push_matrix_calc sample_state (some { data := some sample_image })).state.draw_buffer (0 * 2048 + 2 * 0) = 0x00
    ∧ load_u8 (imp_push_matrix_calc sample_state (some { data := some sample_image })).state.draw_buffer (0 * 2048 + 2 * 0 + 1) = 0x00
    ∧ load_u8 (imp_push_matrix_calc sample_state (some { data := some sample_image })).state.draw_buffer (0 * 2048 + 2 * 1) = 0xFF
    ∧ load_u8 (imp_push_matrix_calc sample_state (some { data := some sample_image })).state.draw_buffer (0 * 2048 + 2 * 1 + 1) = 0xFF
    ∧ load_u8 (imp_push_matrix_calc sample_state (some { data := some sample_image })).state.draw_buffer (0 * 2048 + 2 * 2) = 0x2B
    ∧ load_u8 (imp_push_matrix_calc sample_state (some { data := some sample_image })).state.draw_buffer (0 * 2048 + 2 * 2 + 1) = 0x3D := by
  have h0 := matrix_calc_packs_pixels sample_state sample_image sample_state_draw_size
    sample_image_size sample_image_bytes 0 0 (by decide) (by decide)
  have h1 := matrix_calc_packs_pixels sample_state sample_image sample_state_draw_size
    sample_image_size sample_image_bytes 0 1 (by decide) (by decide)
  have h2 := matrix_calc_packs_pixels sample_state sample_image sample_state_draw_size
    sample_image_size sample_image_bytes 0 2 (by decide) (by decide)
  rw [sample_image_load _ (by decide), sample_image_load _ (by decide),
    sample_image_load _ (by decide)] at h0 h1 h2
  exact ⟨h0.1.trans (by decide), h0.2.1.trans (by decide), h1.1.trans (by decide),
    h1.2.1.trans (by decide), h2.1.trans (by decide), h2.2.1.trans (by decide)⟩

/-! ## Claim C2 -/

/-- Claim C2: for every object whose draw and send buffers have 327680 bytes, after
`imp_push_copyandmask_buffer` the send-buffer byte at `y*2048 + j` (line `y < 160`,
offset `j < 1920`) is the draw-buffer byte at the same offset XOR `P[j mod 4]`,
`P = [0xE7, 0xF3, 0xE7, 0xFF]`; the index into `P` depends on the offset within the
line only, so the pattern restarts at every line. -/
theorem copyandmask_xors_pattern (x : t_imp_push)
    (_hd : x.draw_buffer.size = 327680) (hs : x.send_buffer.size = 327680)
    (hb : ByteValued x.draw_buffer) (y j : Nat) (hy : y < 160) (hj : j < 1920) :
    load_u8 (imp_push_copyandmask_buffer x).1.send_buffer (y * 2048 + j)
      = load_u8 x.draw_buffer (y * 2048 + j) ^^^ [0xE7, 0xF3, 0xE7, 0xFF].getD (j % 4) 0 := by
  rw [copyandmask_send_written x hs y j hy hj]
  exact xor_byte_mod _ _ (hb _) (pattern_byte_lt j)

/-- Instance of C2: with the draw buffer filled with 0xEE, byte 5 of line 1 of the send
buffer is 0xEE XOR 0xF3 = 0x1D and byte 0 of line 2 is 0xEE XOR 0xE7 = 0x09. -/
theorem copyandmask_xors_pattern_witness :
    load_u8 (imp_push_copyandmask_buffer sample_state).1.send_buffer (1 * 2048 + 5) = 0x1D
    ∧ load_u8 (imp_push_copyandmask_buffer sample_state).1.send_buffer (2 * 2048 + 0)
        = 0x09 := by
  have h1 := copyandmask_xors_pattern sample_state sample_state_draw_size
    sample_state_send_size sample_state_draw_bytes 1 5 (by decide) (by decide)
  have h2 := copyandmask_xors_pattern sample_state sample_state_draw_size
    sample_state_send_size sample_state_draw_bytes 2 0 (by decide) (by decide)
  rw [sample_state_draw_load _ (by decide)] at h1 h2
  exact ⟨h1.trans (by decide), h2.trans (by decide)⟩

/-! ## Claim C3 -/

/-- Claim C3: in one iteration of `imp_push_threadproc` on an object with a device
handle, the frame flag set and a send buffer of 327680 bytes, when every transfer
returns 0, the calls are: lock, one transfer of the 16-byte header `FF CC AA 88` and
twelve zero bytes, then 20 transfers in index order, transfer `i` carrying the 16384
bytes of the send buffer at offsets `i*16384 .. (i+1)*16384 - 1`, then unlock and the
frame sleep; the 20 payloads concatenated in order are the whole send buffer. -/
theorem threadproc_sends_header_then_frame (x : t_imp_push) (dev : Nat) (res : Nat → Int)
    (hc : x.isThreadCancel = false) (hd : x.device = some dev)
    (hf : x.is_matrix_received = true) (hs : x.send_buffer.size = 327680)
    (hok : ∀ i, i < 20 → res i = 0) :
    threadproc_iteration x 0 res
        = [Event.mutex_lock,
           Event.bulk_transfer dev 1
             [0xFF, 0xCC, 0xAA, 0x88, 0x00, 0x00, 0x00, 0x00,
              0x00, 0x00, 0x00, 0x00, 0x00, 0x00, 0x00, 0x00] 16 1000]
          ++ (List.range 20).map (fun i =>
                Event.bulk_transfer dev 1
                  (read_bytes x.send_buffer (i * 16384) 16384) 16384 1000)
          ++ [Event.mutex_unlock, Event.sleep 16]
    ∧ (∀ i k, i < 20 → k < 16384 →
        (read_bytes x.send_buffer (i * 16384) 16384).length = 16384
        ∧ (read_bytes x.send_buffer (i * 16384) 16384)[k]?
            = x.send_buffer[i * 16384 + k]?)
    ∧ ((List.range 20).map (fun i => read_bytes x.send_buffer (i * 16384) 16384)).flatten
        = x.send_buffer.toList := by
  refine ⟨?_, ?_, ?_⟩
  · unfold threadproc_iteration
    rw [hc, if_neg (by simp), threadproc_body_streaming x dev 0 res hd hf,
      send_messages_all_ok dev x.send_buffer res 20 0 (fun i _ h2 => hok i (by omega))]
    simp only [Nat.zero_add, message_event_eq, header_event_eq]
  · intro i k hi hk
    refine ⟨read_bytes_length _ _ _, ?_⟩
    rw [read_bytes_getElem? _ _ _ _ hk]
    have hlt : i * 16384 + k < x.send_buffer.size := by omega
    rw [Array.getElem?_eq_getElem hlt]
    simp [load_u8, Array.getD, hlt]
  · have h := read_bytes_flatten x.send_buffer 16384 20
    have e : 20 * 16384 = x.send_buffer.size := by omega
    rw [e, read_bytes_all] at h
    exact h

/-- Instance of C3 on the sentinel-filled streaming object with all transfers succeeding. -/
theorem threadproc_sends_header_then_frame_witness :
    threadproc_iteration sample_state 0 (fun _ => 0)
        = [Event.mutex_lock,
           Event.bulk_transfer 0 1
             [0xFF, 0xCC, 0xAA, 0x88, 0x00, 0x00, 0x00, 0x00,
              0x00, 0x00, 0x00, 0x00, 0x00, 0x00, 0x00, 0x00] 16 1000]
          ++ (List.range 20).map (fun i =>
                Event.bulk_transfer 0 1
                  (read_bytes sample_state.send_buffer (i * 16384) 16384) 16384 1000)
          ++ [Event.mutex_unlock, Event.sleep 16]
    ∧ ((List.range 20).map
        (fun i => read_bytes sample_state.send_buffer (i * 16384) 16384)).flatten
        = sample_state.send_buffer.toList :=
  ⟨(threadproc_sends_header_then_frame sample_state 0 (fun _ => 0) rfl rfl rfl
      sample_state_send_size (fun _ _ => rfl)).1,
   (threadproc_sends_header_then_frame sample_state 0 (fun _ => 0) rfl rfl rfl
      sample_state_send_size (fun _ _ => rfl)).2.2⟩

/-! ## Claim C4 -/

/-- Claim C4, evaluated on the code: an object freshly created on a host with an
available Push 2 has the frame flag false, and a thread iteration on it only sleeps.
Called with a matrix whose data pointer is NULL, `imp_push_matrix_calc` returns
`JIT_ERR_INVALID_INPUT` and leaves both buffers as they were, but `is_matrix_received`
is true afterwards, because line 154 assigns it before the pointer test of line 160;
the next thread iteration therefore transmits the header and the 20 messages of the
still zero-filled send buffer. -/
theorem matrix_calc_null_data_sets_flag :
    (imp_push_new false push2_host).1.is_matrix_received = false
    ∧ threadproc_iteration (imp_push_new false push2_host).1 0 (fun _ => 0)
        = [Event.sleep 16]
    ∧ (imp_push_matrix_calc (imp_push_new false push2_host).1 (some { data := none })).err
        = t_jit_err.JIT_ERR_INVALID_INPUT
    ∧ (imp_push_matrix_calc (imp_push_new false push2_host).1
        (some { data := none })).state.draw_buffer
        = (imp_push_new false push2_host).1.draw_buffer
    ∧ (imp_push_matrix_calc (imp_push_new false push2_host).1
        (some { data := none })).state.send_buffer
        = (imp_push_new false push2_host).1.send_buffer
    ∧ (imp_push_matrix_calc (imp_push_new false push2_host).1
        (some { data := none })).state.is_matrix_received = true
    ∧ threadproc_iteration
        (imp_push_matrix_calc (imp_push_new false push2_host).1
          (some { data := none })).state 0 (fun _ => 0)
        = [Event.mutex_lock, header_event 0]
          ++ (List.range 20).map
              (fun i => message_event 0 (zeroed PUSH2_DISPLAY_IMAGE_BUFFER_SIZE) i)
          ++ [Event.mutex_unlock, Event.sleep 16] := by
  refine ⟨rfl, ?_, rfl, rfl, rfl, rfl, ?_⟩
  · have hb := threadproc_body_idle (imp_push_new false push2_host).1 0 (fun _ => 0)
      (Or.inr rfl)
    unfold threadproc_iteration
    rw [if_neg (by decide)]
    exact hb
  · have hb := threadproc_body_streaming
      (imp_push_matrix_calc (imp_push_new false push2_host).1 (some { data := none })).state
      0 0 (fun _ => 0) rfl rfl
    have hm := send_messages_all_ok 0 (zeroed PUSH2_DISPLAY_IMAGE_BUFFER_SIZE) (fun _ => 0)
      20 0 (fun _ _ _ => rfl)
    simp only [Nat.zero_add] at hm
    unfold threadproc_iteration
    rw [if_neg (by decide), hb]
    exact congrArg (fun l => [Event.mutex_lock, header_event 0] ++ l
      ++ [Event.mutex_unlock, Event.sleep 16]) hm

/-! ## Claim C5 -/

/-- Claim C5: in a streaming iteration of `imp_push_threadproc`, whatever the header
transfer returns, if `k < 20` is the first message index whose transfer returns non-zero
then the data transfers of that iteration are exactly those of messages `0 .. k`, in
order, followed by unlock; and the iteration after it sends the header and, its transfers
succeeding, all 20 messages from message 0. -/
theorem threadproc_aborts_frame_on_failure (x : t_imp_push) (dev : Nat)
    (hr1 hr2 : Int) (res1 res2 : Nat → Int) (k : Nat)
    (hc : x.isThreadCancel = false) (hd : x.device = some dev)
    (hf : x.is_matrix_received = true)
    (hk : k < 20) (hok : ∀ i, i < k → res1 i = 0) (hfail : res1 k ≠ 0)
    (hok2 : ∀ i, i < 20 → res2 i = 0) :
    threadproc_iteration x hr1 res1
        = [Event.mutex_lock,
           Event.bulk_transfer dev 1
             [0xFF, 0xCC, 0xAA, 0x88, 0x00, 0x00, 0x00, 0x00,
              0x00, 0x00, 0x00, 0x00, 0x00, 0x00, 0x00, 0x00] 16 1000]
          ++ (List.range (k + 1)).map (fun i =>
                Event.bulk_transfer dev 1
                  (read_bytes x.send_buffer (i * 16384) 16384) 16384 1000)
          ++ [Event.mutex_unlock, Event.sleep 16]
    ∧ (run x [Action.thread_iteration hr1 res1, Action.thread_iteration hr2 res2]).2
        = ([Event.mutex_lock,
           Event.bulk_transfer dev 1
             [0xFF, 0xCC, 0xAA, 0x88, 0x00, 0x00, 0x00, 0x00,
              0x00, 0x00, 0x00, 0x00, 0x00, 0x00, 0x00, 0x00] 16 1000]
          ++ (List.range (k + 1)).map (fun i =>
                Event.bulk_transfer dev 1
                  (read_bytes x.send_buffer (i * 16384) 16384) 16384 1000)
          ++ [Event.mutex_unlock, Event.sleep 16])
          ++ ([Event.mutex_lock,
           Event.bulk_transfer dev 1
             [0xFF, 0xCC, 0xAA, 0x88, 0x00, 0x00, 0x00, 0x00,
              0x00, 0x00, 0x00, 0x00, 0x00, 0x00, 0x00, 0x00] 16 1000]
          ++ (List.range 20).map (fun i =>
                Event.bulk_transfer dev 1
                  (read_bytes x.send_buffer (i * 16384) 16384) 16384 1000)
          ++ [Event.mutex_unlock, Event.sleep 16]) := by
  have h1 : threadproc_iteration x hr1 res1
        = [Event.mutex_lock,
           Event.bulk_transfer dev 1
             [0xFF, 0xCC, 0xAA, 0x88, 0x00, 0x00, 0x00, 0x00,
              0x00, 0x00, 0x00, 0x00, 0x00, 0x00, 0x00, 0x00] 16 1000]
          ++ (List.range (k + 1)).map (fun i =>
                Event.bulk_transfer dev 1
                  (read_bytes x.send_buffer (i * 16384) 16384) 16384 1000)
          ++ [Event.mutex_unlock, Event.sleep 16] := by
    unfold threadproc_iteration
    rw [hc, if_neg (by simp), threadproc_body_streaming x dev hr1 res1 hd hf,
      send_messages_first_failure dev x.send_buffer res1 20 0 k hk
        (fun i _ h2 => hok i (by omega)) (by rw [Nat.zero_add]; exact hfail)]
    simp only [Nat.zero_add, message_event_eq, header_event_eq]
  have h2 : threadproc_iteration x hr2 res2
        = [Event.mutex_lock,
           Event.bulk_transfer dev 1
             [0xFF, 0xCC, 0xAA, 0x88, 0x00, 0x00, 0x00, 0x00,
              0x00, 0x00, 0x00, 0x00, 0x00, 0x00, 0x00, 0x00] 16 1000]
          ++ (List.range 20).map (fun i =>
                Event.bulk_transfer dev 1
                  (read_bytes x.send_buffer (i * 16384) 16384) 16384 1000)
          ++ [Event.mutex_unlock, Event.sleep 16] := by
    unfold threadproc_iteration
    rw [hc, if_neg (by simp), threadproc_body_streaming x dev hr2 res2 hd hf,
      send_messages_all_ok dev x.send_buffer res2 20 0 (fun i _ h2 => hok2 i (by omega))]
    simp only [Nat.zero_add, message_event_eq, header_event_eq]
  refine ⟨h1, ?_⟩
  simp only [run, step, List.append_nil]
  rw [h1, h2]

/-- Instance of C5: the 7th of 20 messages (index 6) times out after a failed header
transfer; the iteration sends messages 0 to 6 and none of the 8th to 20th. -/
theorem threadproc_aborts_frame_on_failure_witness :
    threadproc_iteration sample_state (-7) fail_on_seventh
        = [Event.mutex_lock,
           Event.bulk_transfer 0 1
             [0xFF, 0xCC, 0xAA, 0x88, 0x00, 0x00, 0x00, 0x00,
              0x00, 0x00, 0x00, 0x00, 0x00, 0x00, 0x00, 0x00] 16 1000]
          ++ (List.range (6 + 1)).map (fun i =>
                Event.bulk_transfer 0 1
                  (read_bytes sample_state.send_buffer (i * 16384) 16384) 16384 1000)
          ++ [Event.mutex_unlock, Event.sleep 16] :=
  (threadproc_aborts_frame_on_failure sample_state 0 (-7) 0 fail_on_seventh (fun _ => 0) 6
    rfl rfl rfl (by decide)
    (fun i hi => by simp only [fail_on_seventh]; rw [if_neg (by omega)])
    (by decide) (fun _ _ => rfl)).1

/-! ## Claim C6 -/

/-- Claim C6: for every prior draw buffer of 327680 bytes and every readable input of
614400 bytes, after `imp_push_matrix_calc` each gutter byte (offset `r*2048 + j`,
`r < 160`, `1920 <= j < 2048`) has its prior value, the buffer keeps its size, and
every offset whose byte changed is of the form `r*2048 + j` with `r < 160` and
`j < 1920`. -/
theorem matrix_calc_preserves_gutter (x : t_imp_push) (in_bp : Mem)
    (hdraw : x.draw_buffer.size = 327680) (_himg : in_bp.size = 614400) :
    (∀ r j, r < 160 → 1920 ≤ j → j < 2048 →
      load_u8 (imp_push_matrix_calc x (some { data := some in_bp })).state.draw_buffer
          (r * 2048 + j)
        = load_u8 x.draw_buffer (r * 2048 + j))
    ∧ (∀ a,
      load_u8 (imp_push_matrix_calc x (some { data := some in_bp })).state.draw_buffer a
        ≠ load_u8 x.draw_buffer a →
      ∃ r j, r < 160 ∧ j < 1920 ∧ a = r * 2048 + j)
    ∧ (imp_push_matrix_calc x (some { data := some in_bp })).state.draw_buffer.size
        = 327680 := by
  refine ⟨?_, ?_, ?_⟩
  · intro r j hr h1 h2
    exact matrix_calc_draw_frame x in_bp _ (by omega)
  · intro a ha
    by_cases h : a / 2048 < 160 ∧ a % 2048 < 1920
    · exact ⟨a / 2048, a % 2048, h.1, h.2, by omega⟩
    · exact absurd (matrix_calc_draw_frame x in_bp a h) ha
  · rw [matrix_calc_draw_size]; exact hdraw

/-- Instance of C6: a draw buffer pre-filled with the sentinel 0xEE still holds the
sentinel in the first gutter byte of line 3 after converting `sample_image`. -/
theorem matrix_calc_preserves_gutter_witness :
    load_u8 (imp_push_matrix_calc sample_state (some { data := some sample_image })).state.draw_buffer (3 * 2048 + 1920) = 0xEE :=
  ((matrix_calc_preserves_gutter sample_state sample_image sample_state_draw_size
      sample_image_size).1 3 1920 (by decide) (by decide) (by decide)).trans
    (sample_state_draw_load _ (by decide))

/-! ## Claim C7 -/

/-- Claim C7: in every state reached from `imp_push_new` by a sequence of
`imp_push_matrix_calc` calls, each gutter byte (offset `y*2048 + j`, `y < 160`,
`1920 <= j < 2048`) of the send buffer equals that of the draw buffer, and
`imp_push_copyandmask_buffer`, on any object, leaves the send-buffer byte at such an
offset as it was (it neither XORs nor writes it). -/
theorem gutter_send_eq_draw (cancel0 : Bool) (host : UsbHost)
    (inputs : List (Option t_jit_matrix)) (y j : Nat)
    (_hy : y < 160) (hj1 : 1920 ≤ j) (hj2 : j < 2048) :
    load_u8 (run (imp_push_new cancel0 host).1 (inputs.map Action.matrix_calc)).1.send_buffer
        (y * 2048 + j)
      = load_u8
          (run (imp_push_new cancel0 host).1 (inputs.map Action.matrix_calc)).1.draw_buffer
          (y * 2048 + j)
    ∧ ∀ z : t_imp_push,
        load_u8 (imp_push_copyandmask_buffer z).1.send_buffer (y * 2048 + j)
          = load_u8 z.send_buffer (y * 2048 + j) := by
  have hg : ¬ ((y * 2048 + j) / 2048 < 160 ∧ (y * 2048 + j) % 2048 < 1920) := by omega
  constructor
  · have h := run_frame (imp_push_new cancel0 host).1 (inputs.map Action.matrix_calc) _ hg
    rw [h.1, h.2]
    rfl
  · intro z
    exact copyandmask_send_frame z _ hg

/-- Instance of C7: after a failed and a successful delivery on a fresh object, the
last gutter byte of the last line agrees between the two buffers. -/
theorem gutter_send_eq_draw_witness :
    load_u8 (run (imp_push_new false empty_host).1
        ([some { data := none }, some { data := some sample_image }].map
          Action.matrix_calc)).1.send_buffer (159 * 2048 + 2047)
      = load_u8 (run (imp_push_new false empty_host).1
        ([some { data := none }, some { data := some sample_image }].map
          Action.matrix_calc)).1.draw_buffer (159 * 2048 + 2047) :=
  (gutter_send_eq_draw false empty_host
    [some { data := none }, some { data := some sample_image }] 159 2047
    (by decide) (by decide) (by decide)).1

/-! ## Claim C8 -/

/-- Claim C8: shaping is its own inverse on the pixel-data region.  For every object
with buffers of 327680 bytes, feeding the send buffer produced by
`imp_push_copyandmask_buffer` back in as the draw buffer of a second call yields, at
every offset `y*2048 + j` with `y < 160` and `j < 1920`, the original draw-buffer byte. -/
theorem shaping_twice_restores (x : t_imp_push)
    (hd : x.draw_buffer.size = 327680) (hs : x.send_buffer.size = 327680)
    (hb : ByteValued x.draw_buffer) (y j : Nat) (hy : y < 160) (hj : j < 1920) :
    load_u8 (imp_push_copyandmask_buffer
        { (imp_push_copyandmask_buffer x).1 with
          draw_buffer := (imp_push_copyandmask_buffer x).1.send_buffer }).1.send_buffer
      (y * 2048 + j)
      = load_u8 x.draw_buffer (y * 2048 + j) := by
  have h1 := copyandmask_xors_pattern x hd hs hb y j hy hj
  have hz := copyandmask_send_size x
  have hp := pattern_byte_lt j
  generalize (imp_push_copyandmask_buffer x).1 = x1 at h1 hz ⊢
  rw [copyandmask_send_written _ (by simp only []; omega) y j hy hj]
  simp only []
  rw [h1, Nat.xor_cancel_right]
  exact Nat.mod_eq_of_lt (hb _)

/-- Instance of C8 on the sentinel-filled draw buffer: shaping twice gives 0xEE back. -/
theorem shaping_twice_restores_witness :
    load_u8 (imp_push_copyandmask_buffer
        { (imp_push_copyandmask_buffer sample_state).1 with
          draw_buffer := (imp_push_copyandmask_buffer sample_state).1.send_buffer }).1.send_buffer
      (159 * 2048 + 1919)
      = 0xEE :=
  (shaping_twice_restores sample_state sample_state_draw_size sample_state_send_size
    sample_state_draw_bytes 159 1919 (by decide) (by decide)).trans
    (sample_state_draw_load _ (by decide))

/-! ## Claim C9 -/

/-- Claim C9: in `imp_push_open_device`, (1) a handle whose open succeeded and whose
claim of interface 0 failed is closed exactly once and is not the returned value;
(2) when the list holds a single matching device (class per-interface, vendor 0x2982,
product 0x1967, descriptor readable), its open succeeds and its claim fails, the
function returns NULL; (3) every handle that was opened and is not the returned handle
has been closed, exactly once; (4) a non-NULL return value is a handle whose open and
claim both succeeded, and it has not been closed. -/
theorem open_device_closes_unclaimed (host : UsbHost) :
    (∀ (h : Nat) (ro rc : Int),
      UsbEvent.libusb_open h ro ∈ (imp_push_open_device host).2 → 0 ≤ ro →
      UsbEvent.libusb_claim_interface h 0 rc ∈ (imp_push_open_device host).2 → rc < 0 →
        (imp_push_open_device host).2.count (UsbEvent.libusb_close h) = 1
        ∧ (imp_push_open_device host).1 ≠ some h)
    ∧ (∀ (pre post : List UsbDevice) (d : UsbDevice),
      host.devices = pre ++ d :: post →
      (∀ e ∈ pre ++ post, e.descriptor_result < 0
        ∨ ¬ (e.descriptor.bDeviceClass = 0 ∧ e.descriptor.idVendor = 0x2982
              ∧ e.descriptor.idProduct = 0x1967)) →
      0 ≤ d.descriptor_result →
      (d.descriptor.bDeviceClass = 0 ∧ d.descriptor.idVendor = 0x2982
        ∧ d.descriptor.idProduct = 0x1967) →
      0 ≤ d.open_result → d.claim_result < 0 →
        (imp_push_open_device host).1 = none)
    ∧ (∀ (h : Nat) (ro : Int),
      UsbEvent.libusb_open h ro ∈ (imp_push_open_device host).2 → 0 ≤ ro →
      (imp_push_open_device host).1 ≠ some h →
        (imp_push_open_device host).2.count (UsbEvent.libusb_close h) = 1)
    ∧ (∀ h : Nat, (imp_push_open_device host).1 = some h →
        (∃ ro, 0 ≤ ro ∧ UsbEvent.libusb_open h ro ∈ (imp_push_open_device host).2)
        ∧ (∃ rc, 0 ≤ rc
            ∧ UsbEvent.libusb_claim_interface h 0 rc ∈ (imp_push_open_device host).2)
        ∧ UsbEvent.libusb_close h ∉ (imp_push_open_device host).2) := by
  unfold imp_push_open_device
  split_ifs with hinit hlist
  · simp
  · simp
  · refine ⟨?_, ?_, ?_, ?_⟩
    · intro h ro rc _ _ hclaim hrc
      exact open_loop_failed_claim host.devices 0 h 0 rc hclaim hrc
    · intro pre post d hdevs hothers hdesc hmatch hopen hclaim
      rw [hdevs]
      have hskip : ∀ e ∈ pre ++ post,
          e.descriptor_result < 0 ∨ is_push2 e.descriptor = false := by
        intro e he
        rcases hothers e he with h | h
        · exact Or.inl h
        · right
          cases hp : is_push2 e.descriptor with
          | false => rfl
          | true => exact absurd ((is_push2_iff _).mp hp) h
      exact open_loop_single_busy pre post d
        (fun e he => hskip e (List.mem_append_left _ he))
        (fun e he => hskip e (List.mem_append_right _ he))
        hdesc ((is_push2_iff _).mpr hmatch) hopen hclaim
    · intro h ro hopen hro hret
      exact open_loop_opened_not_returned host.devices 0 h ro hopen hro hret
    · intro h hret
      exact open_loop_returned host.devices 0 h hret

/-- Instance of C9 on a host listing a hub and a Push 2 that another application
holds: the Push 2 (entry 1) is opened, its claim fails with -6, the handle is closed
once and NULL is returned. -/
theorem open_device_closes_unclaimed_witness :
    (imp_push_open_device busy_host).2.count (UsbEvent.libusb_close 1) = 1
    ∧ (imp_push_open_device busy_host).1 ≠ some 1
    ∧ (imp_push_open_device busy_host).1 = none :=
  ⟨((open_device_closes_unclaimed busy_host).1 1 0 (-6) (by decide) (by decide)
      (by decide) (by decide)).1,
   ((open_device_closes_unclaimed busy_host).1 1 0 (-6) (by decide) (by decide)
      (by decide) (by decide)).2,
   (open_device_closes_unclaimed busy_host).2.1 [other_device] [] busy_push2 rfl
      (by decide) (by decide) (by decide) (by decide) (by decide)⟩

/-! ## Claim C10 -/

/-- Claim C10: an iteration of `imp_push_threadproc` on an object whose device handle is
NULL or whose frame flag is false makes no call but the frame sleep (no transfer, no
lock); and when `imp_push_open_device` returned NULL at creation, no sequence of thread
iterations and `imp_push_matrix_calc` calls contains a transfer. -/
theorem no_transfer_without_device :
    (∀ (x : t_imp_push) (hr : Int) (res : Nat → Int),
      (x.device = none ∨ x.is_matrix_received = false) →
        threadproc_body x hr res = [Event.sleep 16]
        ∧ ∀ e, e ∈ threadproc_iteration x hr res →
            e.is_transfer = false ∧ e ≠ Event.mutex_lock)
    ∧ (∀ (cancel0 : Bool) (host : UsbHost), (imp_push_open_device host).1 = none →
        ∀ (acts : List Action) (e : Event),
          e ∈ (run (imp_push_new cancel0 host).1 acts).2 → e.is_transfer = false) := by
  constructor
  · intro x hr res h
    refine ⟨threadproc_body_idle x hr res h, ?_⟩
    intro e he
    rw [threadproc_iteration_idle x hr res h e he]
    exact ⟨rfl, by simp⟩
  · intro cancel0 host hnone acts e he
    exact run_no_device _ acts hnone e he

/-- Instance of C10: on an object created on a host without devices, an iteration does
nothing but sleep, and a delivery followed by an iteration contains no transfer. -/
theorem no_transfer_without_device_witness :
    threadproc_body (imp_push_new false empty_host).1 0 (fun _ => 0) = [Event.sleep 16]
    ∧ (run (imp_push_new false empty_host).1
        [Action.matrix_calc (some { data := some sample_image }),
         Action.thread_iteration 0 (fun _ => 0)]).2.filter Event.is_transfer = [] :=
  ⟨(no_transfer_without_device.1 (imp_push_new false empty_host).1 0 (fun _ => 0)
      (Or.inl rfl)).1,
   List.filter_eq_nil_iff.mpr (fun e he => by
     simp [no_transfer_without_device.2 false empty_host rfl _ e he])⟩

end ImpPush
